import Mathlib

/-!
Verification development for the lox-typescript tree-walking interpreter
(`SawyerHood/lox-typescript`).  The definitions below are a shallow embedding
of the current sources: `src/Scanner.ts`, `src/Resolver.ts`,
`src/Interpreter.ts`, `src/Enviornment.ts`.  Each definition carries a note
naming the TypeScript function it embeds.  Programs are given as ASTs
(the parse of the quoted Lox source under the grammar of `src/Parser.ts`);
JavaScript `null`/`undefined`, runtime errors, the `Return` control signal
and host `TypeError` crashes are all modelled explicitly.  Lox numbers are
IEEE-754 doubles in the source; every number occurring in the programs and
properties treated here is a small integer, on which double arithmetic is
exact, so numbers are modelled as `Int`.
-/

namespace Lox

/-- Token kinds, from `src/TokenType.ts` (the closed enum used by the
scanner, parser and interpreter). -/
inductive TokType where
  | LEFT_PAREN | RIGHT_PAREN | LEFT_BRACE | RIGHT_BRACE
  | COMMA | DOT | MINUS | PLUS | SEMICOLON | SLASH | STAR
  | BANG | BANG_EQUAL | EQUAL | EQUAL_EQUAL
  | GREATER | GREATER_EQUAL | LESS | LESS_EQUAL
  | IDENTIFIER | STRING | NUMBER
  | AND | CLASS | ELSE | FALSE | FUN | FOR | IF | NIL | OR
  | PRINT | RETURN | SUPER | THIS | TRUE | VAR | WHILE
  | EOF
deriving DecidableEq, Repr

/-- A scanned literal payload: the `literal` field of `Token`
(`src/Token.ts`).  `STRING` tokens carry their contents; `NUMBER` tokens
carry the raw lexeme text (the numeric `parseFloat` value is not needed by
any property treated here); all other tokens carry `null`. -/
inductive TokLit where
  | none
  | str (s : String)
  | numRaw (s : String)
deriving DecidableEq, Repr

/-- A token, from `src/Token.ts`: `{ type, lexeme, literal, line }`. -/
structure Tok where
  ttype : TokType
  lexeme : String
  literal : TokLit
  line : Nat
deriving DecidableEq, Repr

/-- The reserved-word table `keywords` of `src/Scanner.ts`. -/
def keywords : List (String × TokType) :=
  [("and", .AND), ("class", .CLASS), ("else", .ELSE), ("false", .FALSE),
   ("for", .FOR), ("fun", .FUN), ("if", .IF), ("nil", .NIL),
   ("or", .OR), ("print", .PRINT), ("return", .RETURN), ("super", .SUPER),
   ("this", .THIS), ("true", .TRUE), ("var", .VAR), ("while", .WHILE)]

/-- Lookup in a JavaScript-`Map`-like association list (first match). -/
def listGet (l : List (String × α)) (k : String) : Option α :=
  (l.find? (fun p => p.1 = k)).map (·.2)

/-- Scanner.isDigit. -/
def isDigitCh (c : Char) : Bool := '0' ≤ c ∧ c ≤ '9'

/-- Scanner.isAlpha. -/
def isAlphaCh (c : Char) : Bool :=
  ('a' ≤ c ∧ c ≤ 'z') ∨ ('A' ≤ c ∧ c ≤ 'Z') ∨ c = '_'

/-- Scanner.isAlphaNumeric. -/
def isAlphaNumCh (c : Char) : Bool := isAlphaCh c || isDigitCh c

/-- Scanner state: the private fields of `class Scanner`
(`src/Scanner.ts`).  The source is a list of characters; `start`,
`current` and `line` are as in the source.  Errors are the
`error(line, message)` reports sent to `src/Error.ts`. -/
structure ScanSt where
  source : List Char
  tokens : List Tok
  start : Nat
  current : Nat
  line : Nat
  errors : List (Nat × String)
deriving Repr

/-- Scanner.isAtEnd: `current >= source.length`. -/
def scanAtEnd (st : ScanSt) : Bool := st.source.length ≤ st.current

/-- Scanner.peek: `'\0'` at end of input, else the char at `current`. -/
def scanPeek (st : ScanSt) : Char :=
  if h : st.current < st.source.length then st.source.get ⟨st.current, h⟩
  else '\x00'

/-- Scanner.peekNext. -/
def scanPeekNext (st : ScanSt) : Char :=
  if h : st.current + 1 < st.source.length then st.source.get ⟨st.current + 1, h⟩
  else '\x00'

/-- Scanner.advance: returns the char at `current` and increments
`current`.  (JavaScript `charAt` yields the empty string out of range;
`advance` is only ever called when `current < length`, but chasing the
source we model the out-of-range result as `'\0'`.) -/
def scanAdvance (st : ScanSt) : Char × ScanSt :=
  (if h : st.current < st.source.length then st.source.get ⟨st.current, h⟩ else '\x00',
   { st with current := st.current + 1 })

/-- Scanner.match. -/
def scanMatch (st : ScanSt) (expected : Char) : Bool × ScanSt :=
  if h : st.current < st.source.length then
    if st.source.get ⟨st.current, h⟩ = expected then
      (true, { st with current := st.current + 1 })
    else (false, st)
  else (false, st)

/-- The source text of the token being built:
`source.substring(start, current)`. -/
def scanText (st : ScanSt) : String :=
  String.mk ((st.source.drop st.start).take (st.current - st.start))

/-- Scanner.addTokenWithLiteral. -/
def scanAddTok (st : ScanSt) (t : TokType) (lit : TokLit) : ScanSt :=
  { st with tokens := st.tokens ++ [⟨t, scanText st, lit, st.line⟩] }

/-- The body of Scanner.string's `while (this.peek() != '"')` loop.  The
loop guard has no `isAtEnd` check: when at end, `peek` returns `'\0'`,
which differs from `'"'`, so the loop advances `current` past the end and
keeps running.  `fuel` bounds the number of iterations we unfold;
exhausting every fuel means the loop does not terminate. -/
def stringLoop : Nat → ScanSt → Option ScanSt
  | 0, _ => Option.none
  | fuel + 1, st =>
    if scanPeek st ≠ '"' then
      let st := if scanPeek st = '\n' then { st with line := st.line + 1 } else st
      stringLoop fuel (scanAdvance st).2
    else some st

/-- Scanner.string: run the scan loop, then (as in the source) report
`Unterminated string.` when at end, else consume the closing quote and
emit the `STRING` token.  (The at-end branch is in fact unreachable:
the loop can only stop on a real `'"'`.) -/
def scanString (fuel : Nat) (st : ScanSt) : Option ScanSt :=
  match stringLoop fuel st with
  | Option.none => Option.none
  | some st =>
    if scanAtEnd st then
      some { st with errors := st.errors ++ [(st.line, "Unterminated string.")] }
    else
      let st := (scanAdvance st).2
      let value := String.mk (((st.source.drop (st.start + 1))).take (st.current - 1 - (st.start + 1)))
      some (scanAddTok st .STRING (.str value))

/-- Scanner.number's digit-consuming loops, fuelled. -/
def digitLoop : Nat → ScanSt → Option ScanSt
  | 0, _ => Option.none
  | fuel + 1, st =>
    if isDigitCh (scanPeek st) then digitLoop fuel (scanAdvance st).2
    else some st

/-- Scanner.number. -/
def scanNumber (fuel : Nat) (st : ScanSt) : Option ScanSt :=
  match digitLoop fuel st with
  | Option.none => Option.none
  | some st =>
    let st? : Option ScanSt :=
      if scanPeek st = '.' ∧ isDigitCh (scanPeekNext st) then
        digitLoop fuel (scanAdvance st).2
      else some st
    match st? with
    | Option.none => Option.none
    | some st => some (scanAddTok st .NUMBER (.numRaw (scanText st)))

/-- Scanner.identifier's `while (isAlphaNumeric(peek)) advance()` loop. -/
def identLoop : Nat → ScanSt → Option ScanSt
  | 0, _ => Option.none
  | fuel + 1, st =>
    if isAlphaNumCh (scanPeek st) then identLoop fuel (scanAdvance st).2
    else some st

/-- Scanner.identifier: consume the alphanumeric tail, then look the text
up in `keywords`, defaulting to `IDENTIFIER`. -/
def scanIdent (fuel : Nat) (st : ScanSt) : Option ScanSt :=
  match identLoop fuel st with
  | Option.none => Option.none
  | some st =>
    let text := scanText st
    let t := (listGet keywords text).getD .IDENTIFIER
    some (scanAddTok st t .none)

/-- The `// comment` skipping loop of Scanner.scanToken. -/
def commentLoop : Nat → ScanSt → Option ScanSt
  | 0, _ => Option.none
  | fuel + 1, st =>
    if scanPeek st ≠ '\n' ∧ ¬ scanAtEnd st then commentLoop fuel (scanAdvance st).2
    else some st

/-- The `switch (c)` body of Scanner.scanToken, rendered as an equality
chain on the consumed character `c`; `st` is the state after the
initial `advance()`. -/
def scanTokenDispatch (fuel : Nat) (c : Char) (st : ScanSt) : Option ScanSt :=
  if c = '(' then some (scanAddTok st .LEFT_PAREN .none)
  else if c = ')' then some (scanAddTok st .RIGHT_PAREN .none)
  else if c = '{' then some (scanAddTok st .LEFT_BRACE .none)
  else if c = '}' then some (scanAddTok st .RIGHT_BRACE .none)
  else if c = ',' then some (scanAddTok st .COMMA .none)
  else if c = '.' then some (scanAddTok st .DOT .none)
  else if c = '-' then some (scanAddTok st .MINUS .none)
  else if c = '+' then some (scanAddTok st .PLUS .none)
  else if c = ';' then some (scanAddTok st .SEMICOLON .none)
  else if c = '*' then some (scanAddTok st .STAR .none)
  else if c = '!' then
    let (m, st) := scanMatch st '='
    some (scanAddTok st (if m then .BANG_EQUAL else .BANG) .none)
  else if c = '=' then
    let (m, st) := scanMatch st '='
    some (scanAddTok st (if m then .EQUAL_EQUAL else .EQUAL) .none)
  else if c = '<' then
    let (m, st) := scanMatch st '='
    some (scanAddTok st (if m then .LESS_EQUAL else .LESS) .none)
  else if c = '>' then
    let (m, st) := scanMatch st '='
    some (scanAddTok st (if m then .GREATER_EQUAL else .GREATER) .none)
  else if c = '/' then
    let (m, st) := scanMatch st '/'
    if m then commentLoop fuel st else some (scanAddTok st .SLASH .none)
  else if c = ' ' then some st
  else if c = '\r' then some st
  else if c = '\t' then some st
  else if c = '\n' then some { st with line := st.line + 1 }
  else if c = '"' then scanString fuel st
  else if isDigitCh c then scanNumber fuel st
  else if isAlphaCh c then scanIdent fuel st
  else some { st with errors := st.errors ++ [(st.line, "Unexpected character")] }

/-- Scanner.scanToken: consume one character and dispatch on it. -/
def scanToken (fuel : Nat) (st : ScanSt) : Option ScanSt :=
  scanTokenDispatch fuel (scanAdvance st).1 (scanAdvance st).2

/-- Scanner.scanTokens' driving loop: while not at end, set
`start := current` and scan one token; finally append the `EOF`
sentinel.  `Option.none` records that some inner loop never finished
(no fuel suffices). -/
def scanLoop : Nat → ScanSt → Option ScanSt
  | 0, _ => Option.none
  | fuel + 1, st =>
    if scanAtEnd st then
      some { st with tokens := st.tokens ++ [⟨.EOF, "", .none, st.line⟩] }
    else
      match scanToken fuel { st with start := st.current } with
      | Option.none => Option.none
      | some st => scanLoop fuel st

/-- Scanner.scanTokens on a source string (fuelled). -/
def scanTokens (fuel : Nat) (source : String) : Option ScanSt :=
  scanLoop fuel ⟨source.data, [], 0, 0, 1, []⟩

/-- When no `'"'` occurs at or after `current`, the guard
`peek != '"'` of Scanner.string's loop never becomes false (at end of
input `peek` yields `'\0'`), so the loop runs forever: no amount of
fuel makes `stringLoop` return. -/
theorem stringLoop_no_quote_none (fuel : Nat) :
    ∀ st : ScanSt, (∀ i, st.current ≤ i → st.source.get? i ≠ some '"') →
    stringLoop fuel st = Option.none := by
  induction fuel with
  | zero => intro st _; rfl
  | succ f ih =>
    intro st h
    have hp : scanPeek st ≠ '"' := by
      unfold scanPeek
      split
      · next hlt =>
        have h2 := h st.current le_rfl
        rw [List.get?_eq_get hlt] at h2
        simpa using h2
      · decide
    rw [stringLoop, if_pos hp]
    have step : ∀ st' : ScanSt, st'.source = st.source → st'.current = st.current →
        stringLoop f (scanAdvance st').2 = Option.none := by
      intro st' hs hc
      apply ih
      intro i hi
      simp only [scanAdvance] at hi ⊢
      rw [hs]
      exact h i (by omega)
    split
    · exact step _ rfl rfl
    · exact step _ rfl rfl

/-- Literal values stored in `LiteralExpr` nodes by the parser
(`src/Parser.ts` primary): `nil`, booleans, numbers, strings. -/
inductive Lit where
  | lnil
  | lbool (b : Bool)
  | lnum (n : Int)
  | lstr (s : String)
deriving DecidableEq, Repr

/-- Expressions (`Expr` of `src/Ast.ts`).  Token fields are reduced to
the lexemes the resolver and interpreter read from them.  `Variable`,
`Assign`, `This` and `Super` nodes carry a node identity `id` standing
for the JavaScript object identity that keys the resolver's
`locals : Map<Expr, number>` side table.  `thisE`/`superE` carry the
keyword token's lexeme (always `"this"` / `"super"` as produced by the
parser), since the resolver and `lookUpVariable` read
`expr.keyword.lexeme`. -/
inductive Expr where
  | binary (left : Expr) (op : TokType) (right : Expr)
  | grouping (e : Expr)
  | literal (v : Lit)
  | logical (left : Expr) (op : TokType) (right : Expr)
  | unary (op : TokType) (right : Expr)
  | varE (id : Nat) (name : String)
  | assign (id : Nat) (name : String) (value : Expr)
  | call (callee : Expr) (args : List Expr)
  | getE (obj : Expr) (name : String)
  | setE (obj : Expr) (name : String) (value : Expr)
  | thisE (id : Nat) (kw : String)
  | superE (id : Nat) (kw : String) (methodName : String)

/-- Statements (`Stmt` of `src/Ast.ts`).  A function statement is its
name, parameter lexemes and body; a class statement carries the
optional superclass `Variable` node (its id and name) and the method
declarations as (name, params, body) triples. -/
inductive Stmt where
  | exprS (e : Expr)
  | printS (e : Expr)
  | varS (name : String) (initz : Option Expr)
  | blockS (stmts : List Stmt)
  | ifS (cond : Expr) (thenB : Stmt) (elseB : Option Stmt)
  | whileS (cond : Expr) (body : Stmt)
  | funS (fname : String) (params : List String) (body : List Stmt)
  | retS (kw : String) (value : Option Expr)
  | classS (cname : String) (superclass : Option (Nat × String))
      (methods : List (String × List String × List Stmt))

/-- Overwrite-or-append update of a JavaScript object / `Map` viewed as
an association list (assignment `obj[k] = v` / `map.set(k, v)`). -/
def objSet (l : List (String × α)) (k : String) (v : α) : List (String × α) :=
  if (l.find? (fun p => p.1 = k)).isSome then
    l.map (fun p => if p.1 = k then (k, v) else p)
  else l ++ [(k, v)]

/-- Lookup (`map.get`) on a `Map<Expr, number>` keyed by node identity. -/
def natGet (l : List (Nat × Nat)) (k : Nat) : Option Nat :=
  (l.find? (fun p => p.1 = k)).map (·.2)

/-- Update (`map.set`) on a `Map<Expr, number>` keyed by node identity. -/
def natSet (l : List (Nat × Nat)) (k : Nat) (v : Nat) : List (Nat × Nat) :=
  if (l.find? (fun p => p.1 = k)).isSome then
    l.map (fun p => if p.1 = k then (k, v) else p)
  else l ++ [(k, v)]

/-- Update the last element of a list (the top of the resolver's scope
stack, which pushes and pops at the array end). -/
def modifyLast (f : α → α) : List α → List α
  | [] => []
  | [a] => [f a]
  | a :: b :: t => a :: modifyLast f (b :: t)

/-- The `currentFunction` state of the resolver (`type FunctionType`). -/
inductive FunKind where
  | fnone | ffunction | fmethod | finitializer
deriving DecidableEq, Repr

/-- The `currentClass` state of the resolver (`type ClassType`). -/
inductive ClassKind where
  | cnone | cclass | csubclass
deriving DecidableEq, Repr

/-- Resolver state (`class Resolver`, `src/Resolver.ts`): the scope
stack (`Map<string, boolean>[]`, innermost scope last), the current
function and class kinds, the `tokenError` reports, and the side table
the resolver writes through `interpreter.resolve`. -/
structure ResSt where
  scopes : List (List (String × Bool))
  currentFunction : FunKind
  currentClass : ClassKind
  errors : List String
  table : List (Nat × Nat)
deriving DecidableEq, Repr

/-- Resolver.beginScope. -/
def beginScope (r : ResSt) : ResSt := { r with scopes := r.scopes ++ [[]] }

/-- Resolver.endScope. -/
def endScope (r : ResSt) : ResSt := { r with scopes := r.scopes.dropLast }

/-- Resolver.declare: no-op at global depth; inside a scope, report a
redeclaration (with the message string exactly as in the source) and
mark the name "declared but not defined". -/
def declareName (r : ResSt) (n : String) : ResSt :=
  if r.scopes.isEmpty then r
  else
    let dup := match r.scopes.getLast? with
      | some sc => (listGet sc n).isSome
      | Option.none => false
    let r := if dup then
        { r with errors := r.errors ++
          ["VariableExpr with this name already declared in this scope."] }
      else r
    { r with scopes := modifyLast (fun sc => objSet sc n false) r.scopes }

/-- Resolver.define. -/
def defineName (r : ResSt) (n : String) : ResSt :=
  if r.scopes.isEmpty then r
  else { r with scopes := modifyLast (fun sc => objSet sc n true) r.scopes }

/-- Does scope `i` of the stack contain `n` (`scopes[i].has(name)`)? -/
def scopeHasAt (scopes : List (List (String × Bool))) (i : Nat) (n : String) : Bool :=
  match scopes.get? i with
  | some sc => (listGet sc n).isSome
  | Option.none => false

/-- One iteration of Resolver.resolveLocal's loop at index `i`:
when `scopes[i]` has the name, `interpreter.resolve(expr,
scopes.length - 1 - i)` overwrites the table entry for this node. -/
def resolveLocalUpd (scopes : List (List (String × Bool))) (id : Nat) (n : String)
    (i : Nat) (tbl : List (Nat × Nat)) : List (Nat × Nat) :=
  if scopeHasAt scopes i n then natSet tbl id (scopes.length - 1 - i) else tbl

/-- Resolver.resolveLocal's `for (let i = scopes.length - 1; i >= 0; i--)`
loop, started at `i`.  The source loop has no early exit: every scope
containing the name overwrites the recorded depth, so the final entry
comes from the outermost such scope. -/
def resolveLocalFrom (scopes : List (List (String × Bool))) (id : Nat) (n : String) :
    Nat → List (Nat × Nat) → List (Nat × Nat)
  | 0, tbl => resolveLocalUpd scopes id n 0 tbl
  | i + 1, tbl => resolveLocalFrom scopes id n i (resolveLocalUpd scopes id n (i + 1) tbl)

/-- Resolver.resolveLocal. -/
def resolveLocal (r : ResSt) (id : Nat) (n : String) : ResSt :=
  if r.scopes.isEmpty then r
  else { r with table := resolveLocalFrom r.scopes id n (r.scopes.length - 1) r.table }

/-- Parameter declare+define loop of Resolver.resolveFunction. -/
def resolveParamsR (params : List String) (st : ResSt) : ResSt :=
  match params with
  | [] => st
  | p :: rest => resolveParamsR rest (defineName (declareName st p) p)

mutual

/-- Resolver.resolveExpr (with the per-variant helpers inlined).  The
resolver of the source is plain structural recursion over the AST;
`fuel` only drives the Lean recursion, returning the state unchanged
when exhausted, and any fuel at least the nesting depth of the program
is enough for it never to be. -/
def resolveExprR : Nat → Expr → ResSt → ResSt
  | 0, _, st => st
  | fuel + 1, e, st =>
    match e with
    | .binary l _ r => resolveExprR fuel r (resolveExprR fuel l st)
    | .grouping e => resolveExprR fuel e st
    | .literal _ => st
    | .logical l _ r => resolveExprR fuel r (resolveExprR fuel l st)
    | .unary _ r => resolveExprR fuel r st
    | .varE id n =>
      -- resolveVariableExpr: `scopes.length && peekScopes().get(name) === false`
      let bad : Bool := match st.scopes.getLast? with
        | some sc => decide (listGet sc n = some false)
        | Option.none => false
      let st := if st.scopes.isEmpty then st
        else if bad then
          { st with errors := st.errors ++
            ["Cannot read local variable in its own initializer."] }
        else st
      resolveLocal st id n
    | .assign id n v => resolveLocal (resolveExprR fuel v st) id n
    | .call callee args => resolveArgsR fuel args (resolveExprR fuel callee st)
    | .getE obj _ => resolveExprR fuel obj st
    | .setE obj _ v => resolveExprR fuel obj (resolveExprR fuel v st)
    | .thisE id kw =>
      let st := if st.currentClass = .cnone then
          { st with errors := st.errors ++ ["Cannot use 'this' outside of a class."] }
        else st
      resolveLocal st id kw
    | .superE id kw _ =>
      let st :=
        if st.currentClass = .cnone then
          { st with errors := st.errors ++ ["Cannot use 'super' outside of a class."] }
        else if st.currentClass ≠ .csubclass then
          { st with errors := st.errors ++
            ["Cannot use 'super' in a class with no superclass."] }
        else st
      resolveLocal st id kw

/-- Argument list of Resolver.resolveCallExpr. -/
def resolveArgsR : Nat → List Expr → ResSt → ResSt
  | 0, _, st => st
  | fuel + 1, es, st =>
    match es with
    | [] => st
    | e :: rest => resolveArgsR fuel rest (resolveExprR fuel e st)

/-- Resolver.resolveStatement.  The `ReturnStmt` case of the source
reads `this.resolveReturnStmt` without calling it — a bare method
reference as an expression statement — so resolving a return statement
has no effect whatsoever. -/
def resolveStmtR : Nat → Stmt → ResSt → ResSt
  | 0, _, st => st
  | fuel + 1, stmt, st =>
    match stmt with
    | .blockS stmts => endScope (resolveStmtsR fuel stmts (beginScope st))
    | .varS n initz =>
      let st := declareName st n
      let st := match initz with
        | some e => resolveExprR fuel e st
        | Option.none => st
      defineName st n
    | .exprS e => resolveExprR fuel e st
    | .funS n params body =>
      resolveFunctionR fuel params body .ffunction (defineName (declareName st n) n)
    | .ifS c t e =>
      let st := resolveStmtR fuel t (resolveExprR fuel c st)
      match e with
      | some e => resolveStmtR fuel e st
      | Option.none => st
    | .printS e => resolveExprR fuel e st
    | .retS _ _ => st
    | .whileS c b => resolveStmtR fuel b (resolveExprR fuel c st)
    | .classS cname sup methods =>
      -- resolveClassStmt
      let enclosingClass := st.currentClass
      let st := { st with currentClass := .cclass }
      let st := defineName (declareName st cname) cname
      let st := match sup with
        | some (sid, sname) =>
          let st := if cname = sname then
              { st with errors := st.errors ++ ["A class cannot inherit from itself."] }
            else st
          let st := { st with currentClass := .csubclass }
          resolveExprR fuel (.varE sid sname) st
        | Option.none => st
      let st := match sup with
        | some _ =>
          let st := beginScope st
          { st with scopes := modifyLast (fun sc => objSet sc "SuperExpr" true) st.scopes }
        | Option.none => st
      let st := beginScope st
      let st := { st with scopes := modifyLast (fun sc => objSet sc "ThisExpr" true) st.scopes }
      let st := resolveMethodsR fuel methods st
      let st := endScope st
      let st := match sup with
        | some _ => endScope st
        | Option.none => st
      { st with currentClass := enclosingClass }

/-- Resolver.resolveStatements. -/
def resolveStmtsR : Nat → List Stmt → ResSt → ResSt
  | 0, _, st => st
  | fuel + 1, stmts, st =>
    match stmts with
    | [] => st
    | s :: rest => resolveStmtsR fuel rest (resolveStmtR fuel s st)

/-- Resolver.resolveFunction. -/
def resolveFunctionR : Nat → List String → List Stmt → FunKind → ResSt → ResSt
  | 0, _, _, _, st => st
  | fuel + 1, params, body, kind, st =>
    let enclosingFunction := st.currentFunction
    let st := { st with currentFunction := kind }
    let st := beginScope st
    let st := resolveParamsR params st
    let st := resolveStmtsR fuel body st
    let st := endScope st
    { st with currentFunction := enclosingFunction }

/-- Method loop of Resolver.resolveClassStmt: each method resolves with
kind `initializer` iff its name is `init`, else `method`. -/
def resolveMethodsR : Nat → List (String × List String × List Stmt) → ResSt → ResSt
  | 0, _, st => st
  | fuel + 1, methods, st =>
    match methods with
    | [] => st
    | (mname, mparams, mbody) :: rest =>
      let kind : FunKind := if mname = "init" then .finitializer else .fmethod
      resolveMethodsR fuel rest (resolveFunctionR fuel mparams mbody kind st)

end

/-- The `resolveReturnStmt` method of the source, which exists but is
never invoked (the `ReturnStmt` case reads the method reference without
calling it).  Embedded for reference in the claim about top-level
`return`. -/
def resolveReturnStmtUncalled (fuel : Nat) (value : Option Expr) (st : ResSt) : ResSt :=
  let st := if st.currentFunction = .fnone then
      { st with errors := st.errors ++ ["Cannot return from top-level code."] }
    else st
  match value with
  | some e =>
    let st := if st.currentFunction = .finitializer then
        { st with errors := st.errors ++ ["Cannot return a value from an initializer."] }
      else st
    resolveExprR fuel e st
  | Option.none => st

/-- Running the resolver over a whole program, from the initial state
(`new Resolver(interpreter)` then `resolveStatements`). -/
def resolveProgram (fuel : Nat) (prog : List Stmt) : ResSt :=
  resolveStmtsR fuel prog ⟨[], .fnone, .cnone, [], []⟩
/-- A function declaration as captured at runtime by `LoxFunction`
(the `FunctionStmt` it closes over). -/
structure FunDecl where
  fname : String
  params : List String
  body : List Stmt

/-- The runtime shape of `class LoxFunction` (`src/Interpreter.ts`): a declaration, the
address of the captured closure frame, and the `isInitializer` flag. -/
structure LoxFn where
  decl : FunDecl
  closure : Nat
  isInitFlag : Bool

/-- The runtime shape of `class LoxClass`: name, optional superclass, and the method table
(a JavaScript object, name to `LoxFunction`). -/
inductive LoxClassV where
  | mk (cname : String) (superclass : Option LoxClassV)
       (methods : List (String × LoxFn))

/-- LoxClass.findMethod: own table first, then the superclass chain. -/
def findMethod : LoxClassV → String → Option LoxFn
  | .mk _ sup methods, n =>
    match listGet methods n with
    | some f => some f
    | Option.none =>
      match sup with
      | some k => findMethod k n
      | Option.none => Option.none

/-- LoxClass.arity: the source returns `0` unconditionally (it does not
consult the `init` method's parameter count). -/
def classArity (_ : LoxClassV) : Nat := 0

/-- Runtime values.  `vnil` is JavaScript `null` (Lox `nil`); `vundefined`
is JavaScript `undefined` (it arises from `getAt` on an absent slot);
`vclock` is the single native `clock` callable installed by the
`Interpreter` constructor; instances live in a store and are referred
to by address.  JavaScript `===` compares function and class objects by
identity; no program or property treated here compares function or
class values, and `isEqualV` returns `false` on them. -/
inductive Value where
  | vnil
  | vundefined
  | vbool (b : Bool)
  | vnum (n : Int)
  | vstr (s : String)
  | vclock
  | vfun (f : LoxFn)
  | vclass (k : LoxClassV)
  | vinst (addr : Nat)

/-- An environment frame (`class Environment`, `src/Enviornment.ts`):
`values` object plus the optional enclosing frame, here an address
into the frame store. -/
structure Frame where
  values : List (String × Value)
  enclosing : Option Nat

/-- A `LoxInstance`: its class and mutable field table. -/
structure Inst where
  klass : LoxClassV
  fields : List (String × Value)

/-- Interpreter state: the frame store (frame 0 is `globals`), the
instance store, lines printed so far by `print`, the resolver's side
table (`locals`), and the address of `this.environment`. -/
structure RunSt where
  frames : List Frame
  insts : List Inst
  output : List String
  locals : List (Nat × Nat)
  env : Nat

/-- Update index `i` of a list in place. -/
def listModify (f : α → α) : List α → Nat → List α
  | [], _ => []
  | a :: t, 0 => f a :: t
  | a :: t, i + 1 => a :: listModify f t i

/-- Environment.define on the frame at address `a`. -/
def defineVar (s : RunSt) (a : Nat) (n : String) (v : Value) : RunSt :=
  let upd := fun fr : Frame => { fr with values := objSet fr.values n v }
  { s with frames := listModify upd s.frames a }

/-- Environment.ancestor: follow `enclosing` links `d` times.
`Option.none` models the JavaScript crash of `env!.enclosing!` /
a property read on `null` when the chain is shorter than `d`. -/
def ancestorAddr (s : RunSt) : Nat → Nat → Option Nat
  | a, 0 => some a
  | a, d + 1 =>
    match s.frames.get? a with
    | some fr =>
      match fr.enclosing with
      | some p => ancestorAddr s p d
      | Option.none => Option.none
    | Option.none => Option.none

/-- Environment.getAt: read slot `n` of the `d`-th ancestor directly.
An absent slot reads as JavaScript `undefined`; `Option.none` is the
host crash of a broken ancestor chain. -/
def getAtSlot (s : RunSt) (a d : Nat) (n : String) : Option Value :=
  match ancestorAddr s a d with
  | some b =>
    match s.frames.get? b with
    | some fr => some ((listGet fr.values n).getD .vundefined)
    | Option.none => Option.none
  | Option.none => Option.none

/-- Environment.assignAt: `ancestor(d).values[name] = value`
(unconditional object assignment, creating the slot if absent). -/
def assignAtSlot (s : RunSt) (a d : Nat) (n : String) (v : Value) : Option RunSt :=
  match ancestorAddr s a d with
  | some b => some (defineVar s b n v)
  | Option.none => Option.none

/-- Environment.get: search this frame, then enclosing frames.
Outer `Option.none` is an artifact bound (a cyclic chain, which the
interpreter never builds); `some Option.none` is the
"Undefined variable" throw; `some (some v)` is a hit. -/
def envGetLoop (s : RunSt) (n : String) : Nat → Nat → Option (Option Value)
  | 0, _ => Option.none
  | fuel + 1, a =>
    match s.frames.get? a with
    | Option.none => Option.none
    | some fr =>
      match listGet fr.values n with
      | some v => some (some v)
      | Option.none =>
        match fr.enclosing with
        | some p => envGetLoop s n fuel p
        | Option.none => some Option.none

/-- Environment.get from address `a`. -/
def envGet (s : RunSt) (a : Nat) (n : String) : Option (Option Value) :=
  envGetLoop s n (s.frames.length + 1) a

/-- Environment.assign: find the owning frame and overwrite; results
as in `envGet` (`some Option.none` is the "Undefined variable" throw). -/
def envAssignLoop (s : RunSt) (n : String) (v : Value) : Nat → Nat → Option (Option RunSt)
  | 0, _ => Option.none
  | fuel + 1, a =>
    match s.frames.get? a with
    | Option.none => Option.none
    | some fr =>
      match listGet fr.values n with
      | some _ => some (some (defineVar s a n v))
      | Option.none =>
        match fr.enclosing with
        | some p => envAssignLoop s n v fuel p
        | Option.none => some Option.none

/-- Environment.assign from address `a`. -/
def envAssign (s : RunSt) (a : Nat) (n : String) (v : Value) : Option (Option RunSt) :=
  envAssignLoop s n v (s.frames.length + 1) a

/-- Allocate a fresh frame (`new Environment(enclosing)`). -/
def allocFrame (s : RunSt) (encl : Option Nat) : RunSt × Nat :=
  ({ s with frames := s.frames ++ [⟨[], encl⟩] }, s.frames.length)

/-- Allocate a fresh instance (`new LoxInstance(klass)`). -/
def allocInst (s : RunSt) (k : LoxClassV) : RunSt × Nat :=
  ({ s with insts := s.insts ++ [⟨k, []⟩] }, s.insts.length)

/-- LoxInstance.set: `fields[name] = value`. -/
def setField (s : RunSt) (a : Nat) (n : String) (v : Value) : RunSt :=
  let upd := fun i : Inst => { i with fields := objSet i.fields n v }
  { s with insts := listModify upd s.insts a }

/-- LoxFunction.bind: a fresh frame enclosing the closure, holding the
bound instance under the slot name the source uses — the string literal
`"ThisExpr"` (`env.define("ThisExpr", instance)`). -/
def bindFn (s : RunSt) (f : LoxFn) (inst : Value) : RunSt × LoxFn :=
  ({ s with frames := s.frames ++ [⟨[("ThisExpr", inst)], some f.closure⟩] },
   ⟨f.decl, s.frames.length, f.isInitFlag⟩)

/-- The parameter-binding loop of LoxFunction.call:
`env.define(params[i], args[i])` for each parameter index; a missing
argument reads as JavaScript `undefined` (the arity check upstream
makes the counts equal on every path the claims exercise). -/
def bindParams (s : RunSt) (a : Nat) : List String → List Value → RunSt
  | [], _ => s
  | p :: ps, avs => bindParams (defineVar s a p (avs.headD .vundefined)) a ps avs.tail

/-- isTruthy: `null`/`undefined` and `false` are falsey, everything
else truthy. -/
def isTruthy : Value → Bool
  | .vnil => false
  | .vundefined => false
  | .vbool b => b
  | _ => true

/-- isEqual, JavaScript strict equality `===` on runtime values
(identity on instances via their store address; see `Value` on
function/class identity). -/
def isEqualV : Value → Value → Bool
  | .vnil, .vnil => true
  | .vundefined, .vundefined => true
  | .vbool a, .vbool b => a = b
  | .vnum a, .vnum b => a = b
  | .vstr a, .vstr b => a = b
  | .vclock, .vclock => true
  | .vinst a, .vinst b => a = b
  | _, _ => false

/-- The parser's literal payload as a runtime value. -/
def litValue : Lit → Value
  | .lnil => .vnil
  | .lbool b => .vbool b
  | .lnum n => .vnum n
  | .lstr s => .vstr s

/-- What `console.log(val ?? "nil")` prints for a value: `null` and
`undefined` coalesce to the string `"nil"`; booleans, numbers and
strings print their JavaScript rendering (an integer-valued double
prints with no decimal point).  `console.log` of a function, class or
instance object prints a host-specific object dump that no property
treated here observes; a fixed placeholder stands for it. -/
def printValue : Value → String
  | .vnil => "nil"
  | .vundefined => "nil"
  | .vbool true => "true"
  | .vbool false => "false"
  | .vnum n => toString n
  | .vstr s => s
  | .vclock => "[object]"
  | .vfun _ => "[object]"
  | .vclass _ => "[object]"
  | .vinst _ => "[object]"

/-- Thrown things: `RuntimeError`, the `Return` control signal, and a
host JavaScript `TypeError` (e.g. a property read on `null`). -/
inductive Exc where
  | rte (msg : String)
  | retSig (v : Value)
  | crash (msg : String)

/-- Result of an evaluation step: a value, a thrown exception, or fuel
exhaustion (an artifact of the fuelled embedding, not a behaviour of
the source). -/
inductive Outcome (α : Type) where
  | ok (a : α)
  | err (e : Exc)
  | timeout

/-- checkNumberOperands followed by the operation: the error message is
the source's exact (misspelled) string `"Operands must be a numbers."`. -/
def numOrErr (l r : Value) (k : Int → Int → Value) : Outcome Value :=
  match l, r with
  | .vnum a, .vnum b => .ok (k a b)
  | _, _ => .err (.rte "Operands must be a numbers.")

/-- The `switch` of evaluateBinary, as a pure function of the operator
and the two operand values.  `/` is Lox double division; on the
integer-valued operands appearing here it is modelled by integer
division, and no property below depends on a quotient.  An operator
outside the switch falls off the function: JavaScript `undefined`. -/
def binOpEval (op : TokType) (l r : Value) : Outcome Value :=
  match op with
  | .GREATER => numOrErr l r (fun a b => .vbool (decide (b < a)))
  | .GREATER_EQUAL => numOrErr l r (fun a b => .vbool (decide (b ≤ a)))
  | .LESS => numOrErr l r (fun a b => .vbool (decide (a < b)))
  | .LESS_EQUAL => numOrErr l r (fun a b => .vbool (decide (a ≤ b)))
  | .MINUS => numOrErr l r (fun a b => .vnum (a - b))
  | .PLUS =>
    match l, r with
    | .vnum a, .vnum b => .ok (.vnum (a + b))
    | .vstr a, .vstr b => .ok (.vstr (a ++ b))
    | _, _ => .err (.rte "Operands must be two numbers or two strings.")
  | .SLASH => numOrErr l r (fun a b => .vnum (a / b))
  | .STAR => numOrErr l r (fun a b => .vnum (a * b))
  | .BANG_EQUAL => .ok (.vbool (! isEqualV l r))
  | .EQUAL_EQUAL => .ok (.vbool (isEqualV l r))
  | _ => .ok .vundefined

/-- evaluateUnary's switch. -/
def unOpEval (op : TokType) (r : Value) : Outcome Value :=
  match op with
  | .BANG => .ok (.vbool (! isTruthy r))
  | .MINUS =>
    match r with
    | .vnum n => .ok (.vnum (-n))
    | _ => .err (.rte "Operand must be a number.")
  | _ => .ok .vundefined

/-- Interpreter.lookUpVariable: use the side-table depth when present
(`getAt`), else read the name from `globals` (frame 0). -/
def lookUpVar (s : RunSt) (id : Nat) (n : String) : Outcome Value :=
  match natGet s.locals id with
  | some d =>
    match getAtSlot s s.env d n with
    | some v => .ok v
    | Option.none => .err (.crash "TypeError: broken environment chain")
  | Option.none =>
    match envGet s 0 n with
    | some (some v) => .ok v
    | some Option.none => .err (.rte ("Undefined variable '" ++ n ++ "'."))
    | Option.none => .timeout

/-- The result of `callee.arity()` for the three callable shapes. -/
def arityOf : Value → Nat
  | .vfun f => f.decl.params.length
  | .vclass k => classArity k
  | _ => 0

/-- Does the callee pass the `callee.call && callee.arity` duck test?
Functions, classes and the native clock do; every other object does
not.  (`null` and `undefined` never reach this test: reading `.call`
on them throws a `TypeError` first.) -/
def isCallable : Value → Bool
  | .vfun _ => true
  | .vclass _ => true
  | .vclock => true
  | _ => false

/-- The method-table construction of the ClassStmt case: each method
becomes a `LoxFunction` closing over the current environment, flagged
as initializer iff it is named `init`; the table is a JavaScript
object keyed by method name. -/
def buildMethods (methods : List (String × List String × List Stmt)) (envA : Nat) :
    List (String × LoxFn) :=
  match methods with
  | [] => []
  | (mname, mparams, mbody) :: rest =>
    objSet (buildMethods rest envA) mname ⟨⟨mname, mparams, mbody⟩, envA, mname = "init"⟩

mutual

/-- Interpreter.evaluate. -/
def evalExpr : Nat → Expr → RunSt → Outcome Value × RunSt
  | 0, _, s => (.timeout, s)
  | fuel + 1, e, s =>
    match e with
    | .literal v => (.ok (litValue v), s)
    | .grouping e => evalExpr fuel e s
    | .unary op r =>
      match evalExpr fuel r s with
      | (.ok rv, s) => (unOpEval op rv, s)
      | other => other
    | .binary l op r =>
      match evalExpr fuel l s with
      | (.ok lv, s) =>
        match evalExpr fuel r s with
        | (.ok rv, s) => (binOpEval op lv rv, s)
        | other => other
      | other => other
    | .logical l op r =>
      match evalExpr fuel l s with
      | (.ok lv, s) =>
        if op = .OR then
          if isTruthy lv then (.ok lv, s) else evalExpr fuel r s
        else
          if ! isTruthy lv then (.ok lv, s) else evalExpr fuel r s
      | other => other
    | .varE id n => (lookUpVar s id n, s)
    | .assign id n v =>
      match evalExpr fuel v s with
      | (.ok vv, s) =>
        match natGet s.locals id with
        | some d =>
          match assignAtSlot s s.env d n vv with
          | some s2 => (.ok vv, s2)
          | Option.none => (.err (.crash "TypeError: broken environment chain"), s)
        | Option.none =>
          match envAssign s 0 n vv with
          | some (some s2) => (.ok vv, s2)
          | some Option.none => (.err (.rte ("Undefined variable '" ++ n ++ "'.")), s)
          | Option.none => (.timeout, s)
      | other => other
    | .call callee args =>
      -- evaluateCall: callee first, then all arguments, then the
      -- callable duck test, then the arity test, then the call.
      match evalExpr fuel callee s with
      | (.ok cv, s) =>
        match evalArgs fuel args s with
        | (.ok avs, s) =>
          match cv with
          | .vnil => (.err (.crash "TypeError: Cannot read properties of null"), s)
          | .vundefined =>
            (.err (.crash "TypeError: Cannot read properties of undefined"), s)
          | _ =>
            if ! isCallable cv then
              (.err (.rte "Can only call functions and classes"), s)
            else if avs.length ≠ arityOf cv then
              (.err (.rte ("Expected " ++ toString (arityOf cv) ++
                " arguments but got " ++ toString avs.length ++ ".")), s)
            else
              callValue fuel cv avs s
        | (.err e, s) => (.err e, s)
        | (.timeout, s) => (.timeout, s)
      | other => other
    | .getE obj n =>
      match evalExpr fuel obj s with
      | (.ok ov, s) =>
        match ov with
        | .vinst a =>
          match s.insts.get? a with
          | some inst =>
            match listGet inst.fields n with
            | some v => (.ok v, s)
            | Option.none =>
              match findMethod inst.klass n with
              | some m =>
                (.ok (.vfun (bindFn s m (.vinst a)).2), (bindFn s m (.vinst a)).1)
              | Option.none =>
                (.err (.rte ("Undefined property '" ++ n ++ "'.")), s)
          | Option.none => (.err (.crash "TypeError: missing instance"), s)
        | _ => (.err (.rte "Only instances have properties."), s)
      | other => other
    | .setE obj n v =>
      -- evaluateSet: the target object is evaluated and checked to be
      -- an instance BEFORE the value expression is evaluated.
      match evalExpr fuel obj s with
      | (.ok ov, s) =>
        match ov with
        | .vinst a =>
          match evalExpr fuel v s with
          | (.ok vv, s) => (.ok vv, setField s a n vv)
          | other => other
        | _ => (.err (.rte "Only instances have fields."), s)
      | other => other
    | .thisE id kw => (lookUpVar s id kw, s)
    | .superE id _ methodName =>
      -- the SuperExpr case: `locals.get(expr) ?? 1`, then getAt on the
      -- slots named by the string literals "SuperExpr" / "ThisExpr".
      let distance := (natGet s.locals id).getD 1
      match getAtSlot s s.env distance "SuperExpr" with
      | Option.none => (.err (.crash "TypeError: broken environment chain"), s)
      | some sv =>
        match getAtSlot s s.env (distance - 1) "ThisExpr" with
        | Option.none => (.err (.crash "TypeError: broken environment chain"), s)
        | some ov =>
          match sv with
          | .vclass k =>
            match findMethod k methodName with
            | some m =>
              (.ok (.vfun (bindFn s m ov).2), (bindFn s m ov).1)
            | Option.none =>
              (.err (.rte ("Indefined property '" ++ methodName ++ "'.")), s)
          | _ =>
            -- `superclass.findMethod` on undefined / a non-class object
            (.err (.crash "TypeError: superclass.findMethod is not a function"), s)

/-- The left-to-right argument evaluation of evaluateCall. -/
def evalArgs : Nat → List Expr → RunSt → Outcome (List Value) × RunSt
  | 0, _, s => (.timeout, s)
  | fuel + 1, es, s =>
    match es with
    | [] => (.ok [], s)
    | e :: rest =>
      match evalExpr fuel e s with
      | (.ok v, s) =>
        match evalArgs fuel rest s with
        | (.ok vs, s) => (.ok (v :: vs), s)
        | (.err ex, s) => (.err ex, s)
        | (.timeout, s) => (.timeout, s)
      | (.err ex, s) => (.err ex, s)
      | (.timeout, s) => (.timeout, s)

/-- Dispatch of `callee.call(args)`: LoxFunction.call, LoxClass.call, or the native
clock.  The clock returns `Date.now() / 1000`, a wall-clock reading no
property treated here observes; it is modelled as `0`. -/
def callValue : Nat → Value → List Value → RunSt → Outcome Value × RunSt
  | 0, _, _, s => (.timeout, s)
  | fuel + 1, cv, avs, s =>
    match cv with
    | .vclock => (.ok (.vnum 0), s)
    | .vfun f =>
      -- LoxFunction.call
      let a := (allocFrame s (some f.closure)).2
      let s2 := bindParams (allocFrame s (some f.closure)).1 a f.decl.params avs
      match evalBlock fuel f.decl.body a s2 with
      | (.ok _, s3) =>
        if f.isInitFlag then
          match getAtSlot s3 f.closure 0 "ThisExpr" with
          | some v => (.ok v, s3)
          | Option.none => (.err (.crash "TypeError: broken environment chain"), s3)
        else (.ok .vnil, s3)
      | (.err (.retSig v), s3) =>
        if f.isInitFlag then
          match getAtSlot s3 f.closure 0 "ThisExpr" with
          | some v2 => (.ok v2, s3)
          | Option.none => (.err (.crash "TypeError: broken environment chain"), s3)
        else (.ok v, s3)
      | (.err e, s3) => (.err e, s3)
      | (.timeout, s3) => (.timeout, s3)
    | .vclass k =>
      -- LoxClass.call: construct the instance, then bind and run
      -- `init` when present (its result is discarded).
      let s1 := (allocInst s k).1
      let a := (allocInst s k).2
      match findMethod k "init" with
      | Option.none => (.ok (.vinst a), s1)
      | some initFn =>
        match callValue fuel (.vfun (bindFn s1 initFn (.vinst a)).2) avs
          (bindFn s1 initFn (.vinst a)).1 with
        | (.ok _, s3) => (.ok (.vinst a), s3)
        | (.err e, s3) => (.err e, s3)
        | (.timeout, s3) => (.timeout, s3)
    | _ => (.err (.crash "TypeError: not callable"), s)

/-- Interpreter.evaluateStmt. -/
def evalStmt : Nat → Stmt → RunSt → Outcome Unit × RunSt
  | 0, _, s => (.timeout, s)
  | fuel + 1, st, s =>
    match st with
    | .exprS e =>
      match evalExpr fuel e s with
      | (.ok _, s) => (.ok (), s)
      | (.err ex, s) => (.err ex, s)
      | (.timeout, s) => (.timeout, s)
    | .printS e =>
      match evalExpr fuel e s with
      | (.ok v, s) => (.ok (), { s with output := s.output ++ [printValue v] })
      | (.err ex, s) => (.err ex, s)
      | (.timeout, s) => (.timeout, s)
    | .varS n initz =>
      match initz with
      | some e =>
        match evalExpr fuel e s with
        | (.ok v, s) => (.ok (), defineVar s s.env n v)
        | (.err ex, s) => (.err ex, s)
        | (.timeout, s) => (.timeout, s)
      | Option.none => (.ok (), defineVar s s.env n .vnil)
    | .blockS stmts =>
      evalBlock fuel stmts (allocFrame s (some s.env)).2 (allocFrame s (some s.env)).1
    | .ifS c t e =>
      match evalExpr fuel c s with
      | (.ok cv, s) =>
        if isTruthy cv then evalStmt fuel t s
        else
          match e with
          | some e => evalStmt fuel e s
          | Option.none => (.ok (), s)
      | (.err ex, s) => (.err ex, s)
      | (.timeout, s) => (.timeout, s)
    | .whileS c b =>
      match evalExpr fuel c s with
      | (.ok cv, s) =>
        if isTruthy cv then
          match evalStmt fuel b s with
          | (.ok _, s) => evalStmt fuel (.whileS c b) s
          | (.err ex, s) => (.err ex, s)
          | (.timeout, s) => (.timeout, s)
        else (.ok (), s)
      | (.err ex, s) => (.err ex, s)
      | (.timeout, s) => (.timeout, s)
    | .funS n params body =>
      (.ok (), defineVar s s.env n (.vfun ⟨⟨n, params, body⟩, s.env, false⟩))
    | .retS _ value =>
      match value with
      | some e =>
        match evalExpr fuel e s with
        | (.ok v, s) => (.err (.retSig v), s)
        | (.err ex, s) => (.err ex, s)
        | (.timeout, s) => (.timeout, s)
      | Option.none => (.err (.retSig .vnil), s)
    | .classS cname sup methods =>
      match sup with
      | some (sid, sname) =>
        match evalExpr fuel (.varE sid sname) s with
        | (.ok supv, s) =>
          match supv with
          | .vclass supk =>
            -- define(name, null); push the super frame; build methods
            let s := defineVar s s.env cname .vnil
            let a := (allocFrame s (some s.env)).2
            let s := defineVar { (allocFrame s (some s.env)).1 with env := a } a
              "SuperExpr" (.vclass supk)
            let tbl := buildMethods methods s.env
            let klass := LoxClassV.mk cname (some supk) tbl
            -- this.environment = this.environment.enclosing! — follow the
            -- current frame's enclosing link; were it absent, the next
            -- property access on the null environment would crash.
            match s.frames.get? s.env with
            | Option.none => (.err (.crash "TypeError: missing frame"), s)
            | some fr =>
              match fr.enclosing with
              | Option.none => (.err (.crash "TypeError: null environment"), s)
              | some p =>
                let s := { s with env := p }
                match envAssign s s.env cname (.vclass klass) with
                | some (some s2) => (.ok (), s2)
                | some Option.none =>
                  (.err (.rte ("Undefined variable '" ++ cname ++ "'.")), s)
                | Option.none => (.timeout, s)
          | _ => (.err (.rte "Superclass must be a class"), s)
        | (.err ex, s) => (.err ex, s)
        | (.timeout, s) => (.timeout, s)
      | Option.none =>
        let s := defineVar s s.env cname .vnil
        let tbl := buildMethods methods s.env
        let klass := LoxClassV.mk cname Option.none tbl
        match envAssign s s.env cname (.vclass klass) with
        | some (some s2) => (.ok (), s2)
        | some Option.none =>
          (.err (.rte ("Undefined variable '" ++ cname ++ "'.")), s)
        | Option.none => (.timeout, s)

/-- The statement sequence of Interpreter.evaluateBlock /
Interpreter.interpret. -/
def evalStmts : Nat → List Stmt → RunSt → Outcome Unit × RunSt
  | 0, _, s => (.timeout, s)
  | fuel + 1, sts, s =>
    match sts with
    | [] => (.ok (), s)
    | st :: rest =>
      match evalStmt fuel st s with
      | (.ok _, s) => evalStmts fuel rest s
      | (.err ex, s) => (.err ex, s)
      | (.timeout, s) => (.timeout, s)

/-- Interpreter.evaluateBlock: save the current environment, switch to
the new frame, run the statements, and restore the saved environment
in a `finally` — on every exit path. -/
def evalBlock : Nat → List Stmt → Nat → RunSt → Outcome Unit × RunSt
  | 0, _, _, s => (.timeout, s)
  | fuel + 1, stmts, a, s =>
    ((evalStmts fuel stmts { s with env := a }).1,
     { (evalStmts fuel stmts { s with env := a }).2 with env := s.env })

end

/-- The interpreter's starting state: the `Interpreter` constructor
defines `clock` in `globals` (frame 0) and points `environment` at it;
the side table `locals` is what the resolver recorded. -/
def initState (locals : List (Nat × Nat)) : RunSt :=
  ⟨[⟨[("clock", .vclock)], Option.none⟩], [], [], locals, 0⟩

/-- Outcome of a whole run, as the driver observes it. -/
inductive RunStatus where
  | notRun
  | completed
  | crashed
  | outOfFuel
deriving DecidableEq, Repr

/-- What `run` (driver) plus Interpreter.interpret produce: the static
error reports, the printed lines, the message of a `RuntimeError` that
reached `interpret`'s catch (printed by `runtimeError`), and the
status — `notRun` when static errors suppressed execution, `crashed`
when an exception other than `RuntimeError` escaped `interpret`
(an uncaught `Return` or a host `TypeError` aborts the process). -/
structure RunResult where
  errors : List String
  output : List String
  runtimeMsg : Option String
  status : RunStatus
deriving DecidableEq, Repr

/-- The driver pipeline on an already-parsed program: resolve; when
`hadError` was set, do not execute; otherwise interpret, catching
`RuntimeError` and nothing else. -/
def runProgram (fuel : Nat) (prog : List Stmt) : RunResult :=
  let r := resolveProgram fuel prog
  if r.errors ≠ [] then ⟨r.errors, [], Option.none, .notRun⟩
  else
    match evalStmts fuel prog (initState r.table) with
    | (.ok _, s) => ⟨[], s.output, Option.none, .completed⟩
    | (.err (.rte m), s) => ⟨[], s.output, some m, .completed⟩
    | (.err (.retSig _), s) => ⟨[], s.output, Option.none, .crashed⟩
    | (.err (.crash _), s) => ⟨[], s.output, Option.none, .crashed⟩
    | (.timeout, s) => ⟨[], s.output, Option.none, .outOfFuel⟩

/-- The final interpreter state of a run (resolver table wired in as in
the driver), for observing the stores. -/
def runProgramState (fuel : Nat) (prog : List Stmt) : RunSt :=
  (evalStmts fuel prog (initState (resolveProgram fuel prog).table)).2

/-- Read a name from the globals frame. -/
def globalValue (s : RunSt) (n : String) : Option Value :=
  match s.frames.get? 0 with
  | some fr => listGet fr.values n
  | Option.none => Option.none

/-- Is a value a `LoxInstance` (the `instanceof LoxInstance` test)? -/
def isInstValue : Value → Bool
  | .vinst _ => true
  | _ => false

/-- The parse of `{ var x = 1; { var x = 2; print x; } }` — two nested
local scopes declaring the same name, the inner `print x` reading it.
Node 0 is the `Variable` node of the read. -/
def progShadow : List Stmt :=
  [.blockS [.varS "x" (some (.literal (.lnum 1))),
    .blockS [.varS "x" (some (.literal (.lnum 2))),
      .printS (.varE 0 "x")]]]

/-- The parse of
`class A { f() { print "A"; } }
class B < A { f() { super.f(); print "B"; } }
B().f();` — node 1 the superclass `Variable`, node 2 the `Super` node,
node 3 the `Variable` read of `B`. -/
def progSuper : List Stmt :=
  [.classS "A" Option.none [("f", [], [.printS (.literal (.lstr "A"))])],
   .classS "B" (some (1, "A"))
     [("f", [], [.exprS (.call (.superE 2 "super" "f") []),
       .printS (.literal (.lstr "B"))])],
   .exprS (.call (.getE (.call (.varE 3 "B") []) "f") [])]

/-- The parse of
`class Counter { init(n) { this.n = n; } get() { return this.n; } }
var c = Counter(5); print c.get();`. -/
def progCounter : List Stmt :=
  [.classS "Counter" Option.none
    [("init", ["n"], [.exprS (.setE (.thisE 1 "this") "n" (.varE 2 "n"))]),
     ("get", [], [.retS "return" (some (.getE (.thisE 3 "this") "n"))])],
   .varS "c" (some (.call (.varE 4 "Counter") [.literal (.lnum 5)])),
   .printS (.call (.getE (.varE 5 "c") "get") [])]

/-- The parse of `return 1;` (a return statement at top level). -/
def progTopReturn : List Stmt :=
  [.retS "return" (some (.literal (.lnum 1)))]

/-- The parse of `var x; x();` (calling `nil`). -/
def progCallNil : List Stmt :=
  [.varS "x" Option.none, .exprS (.call (.varE 1 "x") [])]

/-- The parse of `1();` (calling a number). -/
def progCallNum : List Stmt :=
  [.exprS (.call (.literal (.lnum 1)) [])]

/-- The parse of `"a" + 1;`. -/
def progPlusMix : List Stmt :=
  [.exprS (.binary (.literal (.lstr "a")) .PLUS (.literal (.lnum 1)))]

/-- The parse of `var y = 0; 1.x = (y = 5);` — a property set on a
non-instance whose value expression has a side effect. -/
def progSetSideEffect : List Stmt :=
  [.varS "y" (some (.literal (.lnum 0))),
   .exprS (.setE (.literal (.lnum 1)) "x" (.assign 1 "y" (.literal (.lnum 5))))]

/-- The parse of `var y = 0; 1(y = 5);` — a call of a non-callable whose
argument has a side effect. -/
def progCallSideEffect : List Stmt :=
  [.varS "y" (some (.literal (.lnum 0))),
   .exprS (.call (.literal (.lnum 1)) [.assign 2 "y" (.literal (.lnum 5))])]

/-- The parse of `1 < true;` (a comparison with a non-number operand). -/
def progLessMix : List Stmt :=
  [.exprS (.binary (.literal (.lnum 1)) .LESS (.literal (.lbool true)))]

/-- Is `op` one of the binary operators routed through
`checkNumberOperands` (`- * / < <= > >=`)? -/
def isArithCmpOp : TokType → Bool
  | .MINUS | .STAR | .SLASH | .LESS | .LESS_EQUAL | .GREATER | .GREATER_EQUAL => true
  | _ => false

/-- Is a literal numeric? -/
def isNumLit : Lit → Bool
  | .lnum _ => true
  | _ => false

/-- Is a literal a string? -/
def isStrLit : Lit → Bool
  | .lstr _ => true
  | _ => false

/-- The code point of a character, as a natural number. -/
def charNat (c : Char) : Nat := c.val.toNat

/-- Unfolding `isAlphaCh` into code-point ranges. -/
theorem isAlphaCh_ranges (c : Char) (hc : isAlphaCh c = true) :
    (97 ≤ charNat c ∧ charNat c ≤ 122) ∨ (65 ≤ charNat c ∧ charNat c ≤ 90) ∨
      charNat c = 95 := by
  simp only [isAlphaCh, decide_eq_true_eq] at hc
  rcases hc with ⟨h1, h2⟩ | ⟨h1, h2⟩ | h1
  · exact Or.inl ⟨h1, h2⟩
  · exact Or.inr (Or.inl ⟨h1, h2⟩)
  · subst h1; exact Or.inr (Or.inr rfl)

/-- An alphabetic character is none of the scanner's punctuation
characters and is not a digit: the `scanToken` dispatch on it runs
Scanner.identifier. -/
theorem scanToken_alpha (fuel : Nat) (c : Char) (st : ScanSt)
    (hc : isAlphaCh c = true) :
    scanTokenDispatch fuel c st = scanIdent fuel st := by
  have hv := isAlphaCh_ranges _ hc
  have hne : ∀ d : Char,
      ¬ (97 ≤ charNat d ∧ charNat d ≤ 122 ∨ 65 ≤ charNat d ∧ charNat d ≤ 90 ∨
         charNat d = 95) → ¬ (c = d) := by
    intro d hd h
    subst h
    exact hd hv
  have hdig : ¬ (isDigitCh c = true) := by
    simp only [isDigitCh, decide_eq_true_eq]
    rintro ⟨h1, h2⟩
    have n1 : 48 ≤ charNat c := h1
    have n2 : charNat c ≤ 57 := h2
    rcases hv with ⟨a, b⟩ | ⟨a, b⟩ | a <;> omega
  rw [scanTokenDispatch]
  rw [if_neg (hne '(' (by decide))]
  rw [if_neg (hne ')' (by decide))]
  rw [if_neg (hne '{' (by decide))]
  rw [if_neg (hne '}' (by decide))]
  rw [if_neg (hne ',' (by decide))]
  rw [if_neg (hne '.' (by decide))]
  rw [if_neg (hne '-' (by decide))]
  rw [if_neg (hne '+' (by decide))]
  rw [if_neg (hne ';' (by decide))]
  rw [if_neg (hne '*' (by decide))]
  rw [if_neg (hne '!' (by decide))]
  rw [if_neg (hne '=' (by decide))]
  rw [if_neg (hne '<' (by decide))]
  rw [if_neg (hne '>' (by decide))]
  rw [if_neg (hne '/' (by decide))]
  rw [if_neg (hne ' ' (by decide))]
  rw [if_neg (hne '\r' (by decide))]
  rw [if_neg (hne '\t' (by decide))]
  rw [if_neg (hne '\n' (by decide))]
  rw [if_neg (hne '"' (by decide))]
  rw [if_neg hdig, if_pos hc]

/-- Indexing equals taking the head after dropping. -/
theorem get?_eq_head?_drop (l : List α) (n : Nat) : l.get? n = (l.drop n).head? := by
  induction l generalizing n with
  | nil => cases n <;> rfl
  | cons a t ih =>
    cases n with
    | zero => rfl
    | succ m => exact ih m

/-- The effect of `scanAdvance`, described through `get?`. -/
theorem scanAdvance_eq (st : ScanSt) (ch : Char)
    (h : st.source.get? st.current = some ch) :
    scanAdvance st = (ch, { st with current := st.current + 1 }) := by
  obtain ⟨hlt, hget⟩ := List.get?_eq_some.mp h
  unfold scanAdvance
  rw [dif_pos hlt, hget]

/-- Running Scanner.identifier's loop over a block `mid` of alphanumeric
characters followed by a non-alphanumeric boundary advances `current`
exactly past `mid`. -/
theorem ident_loop_run (mid : List Char) : ∀ (fuel : Nat) (st : ScanSt) (rest : List Char),
    mid.length + 1 ≤ fuel →
    st.source.drop st.current = mid ++ rest →
    (∀ x ∈ mid, isAlphaNumCh x = true) →
    (∀ r, rest.head? = some r → isAlphaNumCh r = false) →
    identLoop fuel st = some { st with current := st.current + mid.length } := by
  induction mid with
  | nil =>
    intro fuel st rest hf hdrop hmid hrest
    match fuel, hf with
    | f + 1, _ =>
      have hp : isAlphaNumCh (scanPeek st) = false := by
        unfold scanPeek
        split
        · next hlt =>
          apply hrest
          have hr : st.source.drop st.current = rest := by simpa using hdrop
          rw [← hr, ← get?_eq_head?_drop]
          exact (List.get?_eq_some.mpr ⟨hlt, rfl⟩)
        · decide
      rw [identLoop, hp]
      simp
  | cons a mid ih =>
    intro fuel st rest hf hdrop hmid hrest
    match fuel, hf with
    | f + 1, hf =>
      have hget : st.source.get? st.current = some a := by
        rw [get?_eq_head?_drop, hdrop]; rfl
      have hp : isAlphaNumCh (scanPeek st) = true := by
        unfold scanPeek
        obtain ⟨hlt, hg⟩ := List.get?_eq_some.mp hget
        rw [dif_pos hlt, hg]
        exact hmid a (by simp)
      rw [identLoop, hp]
      have hdrop2 : (scanAdvance st).2.source.drop (scanAdvance st).2.current =
          mid ++ rest := by
        show st.source.drop (st.current + 1) = mid ++ rest
        have h2 : (st.source.drop st.current).drop 1 = st.source.drop (st.current + 1) :=
          List.drop_drop 1 st.current st.source
        rw [← h2, hdrop]
        rfl
      have hrun := ih f (scanAdvance st).2 rest (by
          simp only [List.length_cons] at hf
          omega) hdrop2
        (fun x hx => hmid x (by simp [hx])) hrest
      rw [hrun]
      show some _ = some _
      congr 1
      show ({ st with current := st.current + 1 + mid.length } : ScanSt) = _
      have : st.current + 1 + mid.length = st.current + (a :: mid).length := by
        simp only [List.length_cons]; omega
      rw [this]

/-- One non-final iteration of Scanner.scanTokens' loop. -/
theorem scanLoop_step (fuel : Nat) (st st' : ScanSt) (hend : scanAtEnd st = false)
    (htok : scanToken fuel { st with start := st.current } = some st') :
    scanLoop (fuel + 1) st = scanLoop fuel st' := by
  rw [scanLoop, if_neg (by simp [hend]), htok]

/-- The final iteration of Scanner.scanTokens' loop: append `EOF`. -/
theorem scanLoop_last (fuel : Nat) (st : ScanSt) (hend : scanAtEnd st = true) :
    scanLoop (fuel + 1) st =
      some { st with tokens := st.tokens ++ [⟨.EOF, "", .none, st.line⟩] } := by
  rw [scanLoop, if_pos (by simp [hend])]

/-- Scanning `s + ";"` for an identifier-shaped `s` yields exactly one
token with lexeme `s` (its kind the keyword kind when `s` is reserved,
else `IDENTIFIER`), then `SEMICOLON`, then `EOF`, with no scan errors;
and the reserved-word table has exactly sixteen entries. -/
theorem c9_scan_ident_roundtrip (c : Char) (cs : List Char) (fuel : Nat)
    (hc : isAlphaCh c = true) (hcs : ∀ x ∈ cs, isAlphaNumCh x = true)
    (hfuel : cs.length + 4 ≤ fuel) :
    keywords.length = 16 ∧
    ∃ st : ScanSt,
      scanTokens fuel (String.mk (c :: cs) ++ ";") = some st ∧
      st.tokens =
        [⟨(listGet keywords (String.mk (c :: cs))).getD .IDENTIFIER,
          String.mk (c :: cs), .none, 1⟩,
         ⟨.SEMICOLON, ";", .none, 1⟩,
         ⟨.EOF, "", .none, 1⟩] ∧
      st.errors = [] := by
  refine ⟨rfl, ?_⟩
  obtain ⟨f2, rfl⟩ : ∃ g, fuel = g + 3 := ⟨fuel - 3, by omega⟩
  have hdata : (String.mk (c :: cs) ++ ";").data = c :: (cs ++ [';']) := by
    rw [String.data_append]
    rfl
  have hlen : (c :: (cs ++ [';'])).length = cs.length + 2 := by simp
  have hdropsucc : (c :: (cs ++ [';'])).drop (cs.length + 1) = [';'] := by
    rw [List.drop_succ_cons, List.drop_left]
  set tok1 : Tok :=
    ⟨(listGet keywords (String.mk (c :: cs))).getD .IDENTIFIER,
      String.mk (c :: cs), .none, 1⟩ with htok1
  -- iteration 1: the identifier/keyword token
  have h1 : scanToken (f2 + 2) (⟨c :: (cs ++ [';']), [], 0, 0, 1, []⟩ : ScanSt) =
      some ⟨c :: (cs ++ [';']), [tok1], 0, cs.length + 1, 1, []⟩ := by
    rw [scanToken,
      scanAdvance_eq (⟨c :: (cs ++ [';']), [], 0, 0, 1, []⟩ : ScanSt) c rfl]
    show scanTokenDispatch (f2 + 2) c (⟨c :: (cs ++ [';']), [], 0, 1, 1, []⟩ : ScanSt) =
      _
    rw [scanToken_alpha _ _ _ hc, scanIdent,
      ident_loop_run cs (f2 + 2) (⟨c :: (cs ++ [';']), [], 0, 1, 1, []⟩ : ScanSt) [';']
        (by omega) rfl hcs (by intro r hr; cases hr; decide)]
    show some (scanAddTok (⟨c :: (cs ++ [';']), [], 0, 1 + cs.length, 1, []⟩ : ScanSt)
      ((listGet keywords
        (scanText (⟨c :: (cs ++ [';']), [], 0, 1 + cs.length, 1, []⟩ : ScanSt))).getD
        .IDENTIFIER) .none) = _
    have htext : scanText (⟨c :: (cs ++ [';']), [], 0, 1 + cs.length, 1, []⟩ : ScanSt) =
        String.mk (c :: cs) := by
      unfold scanText
      show String.mk (((c :: (cs ++ [';'])).drop 0).take (1 + cs.length - 0)) = _
      rw [List.drop_zero, Nat.sub_zero, Nat.add_comm 1 cs.length, List.take_succ_cons,
        List.take_left]
    rw [scanAddTok, htext]
    show some (⟨c :: (cs ++ [';']), [] ++ [⟨_, _, _, _⟩], 0, 1 + cs.length, 1, []⟩ :
      ScanSt) = _
    rw [List.nil_append, Nat.add_comm 1 cs.length]
  -- iteration 2: the semicolon token
  have h2 : scanToken (f2 + 1)
      (⟨c :: (cs ++ [';']), [tok1], cs.length + 1, cs.length + 1, 1, []⟩ : ScanSt) =
      some ⟨c :: (cs ++ [';']), [tok1, ⟨.SEMICOLON, ";", .none, 1⟩],
        cs.length + 1, cs.length + 2, 1, []⟩ := by
    have hget : (c :: (cs ++ [';'])).get? (cs.length + 1) = some ';' := by
      rw [get?_eq_head?_drop, hdropsucc]
      rfl
    rw [scanToken, scanAdvance_eq _ ';' hget]
    show some (scanAddTok
      (⟨c :: (cs ++ [';']), [tok1], cs.length + 1, cs.length + 1 + 1, 1, []⟩ : ScanSt)
      .SEMICOLON .none) = _
    have htext : scanText
        (⟨c :: (cs ++ [';']), [tok1], cs.length + 1, cs.length + 1 + 1, 1, []⟩ :
          ScanSt) = ";" := by
      unfold scanText
      show String.mk (((c :: (cs ++ [';'])).drop (cs.length + 1)).take
        (cs.length + 1 + 1 - (cs.length + 1))) = _
      rw [hdropsucc, Nat.add_sub_cancel_left]
      rfl
    rw [scanAddTok, htext]
    rfl
  have hrun : scanLoop (f2 + 3) (⟨c :: (cs ++ [';']), [], 0, 0, 1, []⟩ : ScanSt) =
      some ⟨c :: (cs ++ [';']),
        [tok1, ⟨.SEMICOLON, ";", .none, 1⟩, ⟨.EOF, "", .none, 1⟩],
        cs.length + 1, cs.length + 2, 1, []⟩ := by
    rw [scanLoop_step (f2 + 2) _ _ (by simp [scanAtEnd]) h1,
      scanLoop_step (f2 + 1) _ _ (by simp [scanAtEnd, hlen]) h2,
      scanLoop_last f2 _ (by simp [scanAtEnd, hlen])]
    rfl
  refine ⟨⟨c :: (cs ++ [';']),
    [tok1, ⟨.SEMICOLON, ";", .none, 1⟩, ⟨.EOF, "", .none, 1⟩],
    cs.length + 1, cs.length + 2, 1, []⟩, ?_, rfl, rfl⟩
  rw [scanTokens, hdata]
  exact hrun

/-- Witness for the identifier round-trip at the reserved word `while`. -/
theorem c9_scan_ident_roundtrip_witness :
    keywords.length = 16 ∧
    ∃ st : ScanSt,
      scanTokens 9 (String.mk ('w' :: ['h', 'i', 'l', 'e']) ++ ";") = some st ∧
      st.tokens =
        [⟨(listGet keywords (String.mk ('w' :: ['h', 'i', 'l', 'e']))).getD .IDENTIFIER,
          String.mk ('w' :: ['h', 'i', 'l', 'e']), .none, 1⟩,
         ⟨.SEMICOLON, ";", .none, 1⟩,
         ⟨.EOF, "", .none, 1⟩] ∧
      st.errors = [] :=
  c9_scan_ident_roundtrip 'w' ['h', 'i', 'l', 'e'] 9 (by decide) (by decide) (by decide)

/-- Scanning a source that opens a string and never closes it hangs:
on `"abc` the scanner consumes the opening quote, enters
Scanner.string, and the loop never exits, whatever the fuel. -/
theorem scanTokens_unterminated_none (fuel : Nat) :
    scanTokens fuel "\"abc" = Option.none := by
  cases fuel with
  | zero => rfl
  | succ f =>
    rw [scanTokens, scanLoop]
    have hend : scanAtEnd ⟨("\"abc").data, [], 0, 0, 1, []⟩ = false := by decide
    rw [if_neg (by simp [hend])]
    have htok : scanToken f ⟨("\"abc").data, [], 0, 0, 1, []⟩ = Option.none := by
      have hadv : scanAdvance ⟨("\"abc").data, [], 0, 0, 1, []⟩ =
          ('"', ⟨("\"abc").data, [], 0, 1, 1, []⟩) := rfl
      rw [scanToken, hadv]
      show scanString f _ = Option.none
      rw [scanString, stringLoop_no_quote_none f _ ?_]
      intro i hi
      match i with
      | 1 => decide
      | 2 => decide
      | 3 => decide
      | (n+4) =>
        have hl : (("\"abc").data).length = 4 := rfl
        rw [List.get?_eq_none.mpr (by rw [hl]; omega)]
        simp
    rw [htok]


/-- Binding parameters never moves the current-environment pointer. -/
theorem bindParams_env (a : Nat) : ∀ (ps : List String) (avs : List Value) (s : RunSt),
    (bindParams s a ps avs).env = s.env := by
  intro ps
  induction ps with
  | nil => intro avs s; rfl
  | cons p ps ih => intro avs s; exact ih avs.tail (defineVar s a p (avs.headD .vundefined))

/-- Reading back an in-place list update. -/
theorem listModify_get? (f : α → α) : ∀ (l : List α) (i j : Nat),
    (listModify f l i).get? j = if i = j then (l.get? j).map f else l.get? j := by
  intro l
  induction l with
  | nil => intro i j; cases i <;> cases j <;> simp [listModify]
  | cons x t ih =>
    intro i j
    cases i with
    | zero => cases j with
      | zero => simp [listModify]
      | succ j => simp [listModify]
    | succ i =>
      cases j with
      | zero => simp [listModify]
      | succ j =>
        simp only [listModify, List.get?]
        rw [ih i j]
        by_cases hij : i = j
        · simp [hij]
        · simp [hij, fun h => hij (Nat.succ_injective h)]

/-- The freshly appended element of a list read back at its address. -/
theorem get?_append_length (l : List α) (x : α) : (l ++ [x]).get? l.length = some x := by
  rw [get?_eq_head?_drop, List.drop_left]
  rfl

/-- Assignment through `assignAt` never moves the current-environment pointer. -/
theorem assignAtSlot_env (s : RunSt) (a d : Nat) (n : String) (v : Value) (s2 : RunSt)
    (h : assignAtSlot s a d n v = some s2) : s2.env = s.env := by
  unfold assignAtSlot at h
  cases han : ancestorAddr s a d with
  | none => simp only [han] at h; cases h
  | some b =>
    simp only [han] at h
    injection h with h1
    rw [← h1]
    rfl

/-- Assignment through `Environment.assign` never moves the current-environment pointer. -/
theorem envAssignLoop_env (s : RunSt) (n : String) (v : Value) :
    ∀ (fuel a : Nat) (s2 : RunSt),
    envAssignLoop s n v fuel a = some (some s2) → s2.env = s.env := by
  intro fuel
  induction fuel with
  | zero => intro a s2 h; cases h
  | succ f ih =>
    intro a s2 h
    rw [envAssignLoop] at h
    cases hfr : s.frames.get? a with
    | none => simp only [hfr] at h; cases h
    | some fr =>
      simp only [hfr] at h
      cases hv : listGet fr.values n with
      | some w =>
        simp only [hv] at h
        injection h with h1
        injection h1 with h2
        rw [← h2]
        rfl
      | none =>
        simp only [hv] at h
        cases hencl : fr.enclosing with
        | some p => simp only [hencl] at h; exact ih p s2 h
        | none =>
          simp only [hencl] at h
          injection h with h1
          cases h1

/-- C1: on `{ var x = 1; { var x = 2; print x; } }` the resolver walks
every scope of the stack without stopping at the first hit, so the
depth it leaves in the side table for the inner `print x` is `1` — the
distance to the outermost declaration — not `0`, the distance to the
innermost; consequently the program prints `1` (the outer `x`), not
`2`.  The resolver reports no error, so this is the executed
behaviour. -/
theorem c1_nested_shadowing_records_outermost :
    (resolveProgram 100 progShadow).errors = [] ∧
    (resolveProgram 100 progShadow).table = [(0, 1)] ∧
    runProgram 100 progShadow = ⟨[], ["1"], Option.none, .completed⟩ :=
  ⟨rfl, rfl, rfl⟩

/-- C2: on the super-dispatch program the resolver records no depth at
all for the `Super` node (it searches the scope stack for the lexeme
`"super"`, but the class scopes hold the key `"SuperExpr"`), so the
interpreter falls back to distance 1, reads an absent `"SuperExpr"`
slot (JavaScript `undefined`), and calling `findMethod` on it throws a
host `TypeError`: the run crashes with no output instead of printing
`A` then `B`. -/
theorem c2_super_dispatch_crashes :
    (resolveProgram 100 progSuper).errors = [] ∧
    natGet (resolveProgram 100 progSuper).table 2 = Option.none ∧
    runProgram 100 progSuper = ⟨[], [], Option.none, .crashed⟩ :=
  ⟨rfl, rfl, rfl⟩

/-- C3: `LoxClass.arity()` returns `0` for every class, never the
`init` method's parameter count, so `Counter(5)` fails the arity check
in `evaluateCall` with the runtime error
`Expected 0 arguments but got 1.` — the program prints nothing instead
of `5`. -/
theorem c3_class_call_arity_always_zero :
    (∀ k : LoxClassV, classArity k = 0) ∧
    runProgram 100 progCounter =
      ⟨[], [], some "Expected 0 arguments but got 1.", .completed⟩ :=
  ⟨fun _ => rfl, rfl⟩

/-- C4: the resolver's `ReturnStmt` case reads `this.resolveReturnStmt`
without calling it, so resolving any return statement changes nothing
(first conjunct); the uninvoked method would have reported
`Cannot return from top-level code.` (second conjunct); hence on
`return 1;` the resolver reports no error, the program executes, and
the thrown `Return` signal escapes `interpret` uncaught: a crash, not
a diagnostic. -/
theorem c4_top_level_return_unreported :
    (∀ (fuel : Nat) (kw : String) (v : Option Expr) (st : ResSt),
      resolveStmtR (fuel + 1) (.retS kw v) st = st) ∧
    (resolveReturnStmtUncalled 100 (some (.literal (.lnum 1)))
      ⟨[], .fnone, .cnone, [], []⟩).errors = ["Cannot return from top-level code."] ∧
    runProgram 100 progTopReturn = ⟨[], [], Option.none, .crashed⟩ :=
  ⟨fun _ _ _ _ => rfl, rfl, rfl⟩

/-- C6: on `var x; x();` the callee evaluates to `nil` (JavaScript
`null`), and `evaluateCall`'s duck test `!callee.call` reads the
property `.call` of `null` — a host `TypeError`, not a `RuntimeError`:
the run crashes with no runtime-error report.  A non-null non-callable
callee (second conjunct, `1();`) does produce the ordinary caught
runtime error `Can only call functions and classes`. -/
theorem c6_nil_callee_crashes :
    runProgram 100 progCallNil = ⟨[], [], Option.none, .crashed⟩ ∧
    runProgram 100 progCallNum =
      ⟨[], [], some "Can only call functions and classes", .completed⟩ :=
  ⟨rfl, rfl⟩


/-- C7 counterexample: evaluating `1 < true;` raises the runtime error
whose message is the source's misspelled string
`Operands must be a numbers.`, which is not the message
`Operands must be numbers.` the claim states. -/
theorem c7_operands_message_counterexample :
    runProgram 100 progLessMix =
      ⟨[], [], some "Operands must be a numbers.", .completed⟩ ∧
    "Operands must be a numbers." ≠ "Operands must be numbers." :=
  ⟨rfl, by decide⟩

/-- C7 amended: for the operators `- * / < <= > >=`, evaluation of a
binary expression on literal operands succeeds when both operands are
numbers and otherwise raises the runtime error
`Operands must be a numbers.` (the source's exact message); `+` adds
two numbers, concatenates two strings, and otherwise raises
`Operands must be two numbers or two strings.` — so `"a" + 1;` raises
exactly that error. -/
theorem c7_binary_arith_behaviour (op : TokType) (hop : isArithCmpOp op = true)
    (a b : Lit) (s : RunSt) (fuel : Nat) :
    ((isNumLit a && isNumLit b) = true →
      ∃ v, evalExpr (fuel + 2) (.binary (.literal a) op (.literal b)) s = (.ok v, s)) ∧
    ((isNumLit a && isNumLit b) = false →
      evalExpr (fuel + 2) (.binary (.literal a) op (.literal b)) s =
        (.err (.rte "Operands must be a numbers."), s)) ∧
    (∀ x y : Int, evalExpr (fuel + 2)
      (.binary (.literal (.lnum x)) .PLUS (.literal (.lnum y))) s =
        (.ok (.vnum (x + y)), s)) ∧
    (∀ x y : String, evalExpr (fuel + 2)
      (.binary (.literal (.lstr x)) .PLUS (.literal (.lstr y))) s =
        (.ok (.vstr (x ++ y)), s)) ∧
    ((isNumLit a && isNumLit b) = false → (isStrLit a && isStrLit b) = false →
      evalExpr (fuel + 2) (.binary (.literal a) .PLUS (.literal b)) s =
        (.err (.rte "Operands must be two numbers or two strings."), s)) ∧
    runProgram 100 progPlusMix =
      ⟨[], [], some "Operands must be two numbers or two strings.", .completed⟩ := by
  cases op <;>
    first
      | exact absurd hop (by decide)
      | (rcases a with _ | ab | an | as <;> rcases b with _ | bb | bn | bs <;>
         refine ⟨?_, ?_, fun x y => rfl, fun x y => rfl, ?_, rfl⟩ <;>
         intro h <;>
         first
           | ((simp [isNumLit] at h) <;> exact h.elim)
           | exact ⟨_, rfl⟩
           | rfl
           | (intro h2
              first
                | ((simp [isStrLit] at h2) <;> exact h2.elim)
                | rfl))

/-- Witness for the amended C7 behaviour: `true - 1` raises
`Operands must be a numbers.`. -/
theorem c7_binary_arith_behaviour_witness :
    evalExpr 2 (.binary (.literal (.lbool true)) .MINUS (.literal (.lnum 1)))
      (initState []) = (.err (.rte "Operands must be a numbers."), initState []) :=
  (c7_binary_arith_behaviour .MINUS rfl (.lbool true) (.lnum 1)
    (initState []) 0).2.1 (by decide)

/-- C10: a property set whose target evaluates to a non-instance raises
`Only instances have fields.` with the state exactly as the target's
evaluation left it — the value expression (`vexp`, arbitrary) is never
evaluated; a call whose callee evaluates to a number raises
`Can only call functions and classes` only after evaluating every
argument (the state is the one the arguments produced).  Concretely,
after `var y = 0; 1.x = (y = 5);` the global `y` is still `0`, while
after `var y = 0; 1(y = 5);` it is `5`. -/
theorem c10_set_checks_target_before_value :
    (∀ (fuel : Nat) (obj vexp : Expr) (n : String) (w : Value) (s s2 : RunSt),
      evalExpr fuel obj s = (.ok w, s2) → isInstValue w = false →
      evalExpr (fuel + 1) (.setE obj n vexp) s =
        (.err (.rte "Only instances have fields."), s2)) ∧
    (∀ (fuel : Nat) (calleeE : Expr) (args : List Expr) (m : Int) (avs : List Value)
      (s s2 s3 : RunSt),
      evalExpr fuel calleeE s = (.ok (.vnum m), s2) →
      evalArgs fuel args s2 = (.ok avs, s3) →
      evalExpr (fuel + 1) (.call calleeE args) s =
        (.err (.rte "Can only call functions and classes"), s3)) ∧
    runProgram 100 progSetSideEffect =
      ⟨[], [], some "Only instances have fields.", .completed⟩ ∧
    globalValue (runProgramState 100 progSetSideEffect) "y" = some (.vnum 0) ∧
    runProgram 100 progCallSideEffect =
      ⟨[], [], some "Can only call functions and classes", .completed⟩ ∧
    globalValue (runProgramState 100 progCallSideEffect) "y" = some (.vnum 5) := by
  refine ⟨?_, ?_, rfl, rfl, rfl, rfl⟩
  · intro fuel obj vexp n w s s2 h hw
    simp only [evalExpr, h]
    cases w <;> simp_all [isInstValue]
  · intro fuel calleeE args m avs s s2 s3 h1 h2
    simp only [evalExpr, h1, h2]
    simp [isCallable, arityOf]

/-- Witness for C10 at a literal non-instance target and a number
callee. -/
theorem c10_set_checks_target_before_value_witness :
    evalExpr 2 (.setE (.literal (.lnum 1)) "x" (.literal (.lnum 7)))
        (initState []) =
      (.err (.rte "Only instances have fields."), initState []) ∧
    evalExpr 2 (.call (.literal (.lnum 1)) []) (initState []) =
      (.err (.rte "Can only call functions and classes"), initState []) :=
  ⟨c10_set_checks_target_before_value.1 1 (.literal (.lnum 1)) (.literal (.lnum 7))
      "x" (.vnum 1) (initState []) (initState []) rfl rfl,
   c10_set_checks_target_before_value.2.1 1 (.literal (.lnum 1)) [] 1 []
      (initState []) (initState []) (initState []) rfl rfl⟩

/-- The frame freshly pushed by a class declaration with a superclass,
read back at the current address after `SuperExpr` is defined in it:
it exists and its `enclosing` link is the environment that was current
before the push. -/
theorem super_frame_lookup (s1 : RunSt) (w : Value) :
    ((defineVar { (allocFrame s1 (some s1.env)).1 with
        env := (allocFrame s1 (some s1.env)).2 }
      (allocFrame s1 (some s1.env)).2 "SuperExpr" w).frames.get?
     (defineVar { (allocFrame s1 (some s1.env)).1 with
        env := (allocFrame s1 (some s1.env)).2 }
      (allocFrame s1 (some s1.env)).2 "SuperExpr" w).env) =
    some ⟨objSet [] "SuperExpr" w, some s1.env⟩ := by
  show (listModify (fun fr => { fr with values := objSet fr.values "SuperExpr" w })
    (s1.frames ++ [⟨[], some s1.env⟩]) s1.frames.length).get? s1.frames.length = _
  rw [listModify_get?, if_pos rfl, get?_append_length]
  rfl

/-- No evaluator step moves the current-environment pointer: whatever
the outcome — normal completion, a thrown `RuntimeError` or host
error, a propagating `Return`, or fuel exhaustion — the state left
behind has the same `env` as the state supplied.  Proved for the six
mutually recursive evaluator functions simultaneously, by induction on
fuel. -/
theorem env_preserved : ∀ fuel : Nat,
    (∀ (e : Expr) (s : RunSt), ((evalExpr fuel e s).2).env = s.env) ∧
    (∀ (es : List Expr) (s : RunSt), ((evalArgs fuel es s).2).env = s.env) ∧
    (∀ (cv : Value) (avs : List Value) (s : RunSt),
      ((callValue fuel cv avs s).2).env = s.env) ∧
    (∀ (st : Stmt) (s : RunSt), ((evalStmt fuel st s).2).env = s.env) ∧
    (∀ (sts : List Stmt) (s : RunSt), ((evalStmts fuel sts s).2).env = s.env) ∧
    (∀ (stmts : List Stmt) (a : Nat) (s : RunSt),
      ((evalBlock fuel stmts a s).2).env = s.env) := by
  intro fuel
  induction fuel with
  | zero =>
    exact ⟨fun _ _ => rfl, fun _ _ => rfl, fun _ _ _ => rfl, fun _ _ => rfl,
      fun _ _ => rfl, fun _ _ _ => rfl⟩
  | succ f ih =>
    obtain ⟨ihE, ihA, ihC, ihS, ihL, ihB⟩ := ih
    have stepE : ∀ (e : Expr) (s : RunSt) (r : Outcome Value) (s2 : RunSt),
        evalExpr f e s = (r, s2) → s2.env = s.env := by
      intro e s r s2 h
      have h2 := ihE e s
      rw [h] at h2
      exact h2
    have stepA : ∀ (es : List Expr) (s : RunSt) (r : Outcome (List Value)) (s2 : RunSt),
        evalArgs f es s = (r, s2) → s2.env = s.env := by
      intro es s r s2 h
      have h2 := ihA es s
      rw [h] at h2
      exact h2
    have stepS : ∀ (st : Stmt) (s : RunSt) (r : Outcome Unit) (s2 : RunSt),
        evalStmt f st s = (r, s2) → s2.env = s.env := by
      intro st s r s2 h
      have h2 := ihS st s
      rw [h] at h2
      exact h2
    have hE : ∀ (e : Expr) (s : RunSt), ((evalExpr (f + 1) e s).2).env = s.env := by
      intro e s
      cases e with
      | literal v => rfl
      | grouping g => exact ihE g s
      | unary op r =>
        simp only [evalExpr]
        rcases h : evalExpr f r s with ⟨res, s1⟩
        have e1 := stepE r s res s1 h
        cases res <;> exact e1
      | binary l op r =>
        simp only [evalExpr]
        rcases h1 : evalExpr f l s with ⟨r1, s1⟩
        have e1 := stepE l s r1 s1 h1
        cases r1 with
        | ok lv =>
          dsimp only
          rcases h2 : evalExpr f r s1 with ⟨r2, s2⟩
          have e2 := stepE r s1 r2 s2 h2
          cases r2 <;> exact e2.trans e1
        | err ex => exact e1
        | timeout => exact e1
      | logical l op r =>
        simp only [evalExpr]
        rcases h1 : evalExpr f l s with ⟨r1, s1⟩
        have e1 := stepE l s r1 s1 h1
        cases r1 with
        | ok lv =>
          dsimp only
          split
          · split
            · exact e1
            · exact (ihE r s1).trans e1
          · split
            · exact e1
            · exact (ihE r s1).trans e1
        | err ex => exact e1
        | timeout => exact e1
      | varE id n => rfl
      | assign id n v =>
        simp only [evalExpr]
        rcases h1 : evalExpr f v s with ⟨r1, s1⟩
        have e1 := stepE v s r1 s1 h1
        cases r1 with
        | ok vv =>
          dsimp only
          cases hng : natGet s1.locals id with
          | some d =>
            simp only [hng]
            cases hass : assignAtSlot s1 s1.env d n vv with
            | some s2 =>
              simp only [hass]
              exact (assignAtSlot_env s1 s1.env d n vv s2 hass).trans e1
            | none => simp only [hass]; exact e1
          | none =>
            simp only [hng]
            cases hasg : envAssign s1 0 n vv with
            | none => simp only [hasg]; exact e1
            | some o =>
              cases o with
              | none => simp only [hasg]; exact e1
              | some s2 =>
                simp only [hasg]
                exact (envAssignLoop_env s1 n vv (s1.frames.length + 1) 0 s2 hasg).trans e1
        | err ex => exact e1
        | timeout => exact e1
      | call callee args =>
        simp only [evalExpr]
        rcases h1 : evalExpr f callee s with ⟨r1, s1⟩
        have e1 := stepE callee s r1 s1 h1
        cases r1 with
        | ok cv =>
          dsimp only
          rcases h2 : evalArgs f args s1 with ⟨r2, s2⟩
          have e2 := stepA args s1 r2 s2 h2
          cases r2 with
          | ok avs =>
            dsimp only
            have e12 := e2.trans e1
            cases cv
            case vnil => exact e12
            case vundefined => exact e12
            all_goals
              (dsimp only
               split
               · exact e12
               · split
                 · exact e12
                 · exact (ihC _ avs s2).trans e12)
          | err ex => exact e2.trans e1
          | timeout => exact e2.trans e1
        | err ex => exact e1
        | timeout => exact e1
      | getE obj n =>
        simp only [evalExpr]
        rcases h1 : evalExpr f obj s with ⟨r1, s1⟩
        have e1 := stepE obj s r1 s1 h1
        cases r1 with
        | ok ov =>
          dsimp only
          cases ov
          case vinst a =>
            dsimp only
            cases hi : s1.insts.get? a with
            | none => simp only [hi]; exact e1
            | some inst =>
              simp only [hi]
              cases hfld : listGet inst.fields n with
              | some v => simp only [hfld]; exact e1
              | none =>
                simp only [hfld]
                cases hm : findMethod inst.klass n with
                | some m => simp only [hm]; exact e1
                | none => simp only [hm]; exact e1
          all_goals exact e1
        | err ex => exact e1
        | timeout => exact e1
      | setE obj n v =>
        simp only [evalExpr]
        rcases h1 : evalExpr f obj s with ⟨r1, s1⟩
        have e1 := stepE obj s r1 s1 h1
        cases r1 with
        | ok ov =>
          dsimp only
          cases ov
          case vinst a =>
            dsimp only
            rcases h2 : evalExpr f v s1 with ⟨r2, s2⟩
            have e2 := stepE v s1 r2 s2 h2
            cases r2 <;> exact e2.trans e1
          all_goals exact e1
        | err ex => exact e1
        | timeout => exact e1
      | thisE id kw => rfl
      | superE id kw methodName =>
        simp only [evalExpr]
        cases hg1 : getAtSlot s s.env ((natGet s.locals id).getD 1) "SuperExpr" with
        | none => simp only [hg1] <;> rfl
        | some sv =>
          simp only [hg1]
          cases hg2 : getAtSlot s s.env ((natGet s.locals id).getD 1 - 1) "ThisExpr" with
          | none => simp only [hg2] <;> rfl
          | some ov =>
            simp only [hg2]
            cases sv
            case vclass k =>
              cases hm : findMethod k methodName with
              | some m => simp only [hm] <;> rfl
              | none => simp only [hm] <;> rfl
            all_goals rfl
    have hA : ∀ (es : List Expr) (s : RunSt), ((evalArgs (f + 1) es s).2).env = s.env := by
      intro es s
      cases es with
      | nil => rfl
      | cons e rest =>
        simp only [evalArgs]
        rcases h1 : evalExpr f e s with ⟨r1, s1⟩
        have e1 := stepE e s r1 s1 h1
        cases r1 with
        | ok v =>
          dsimp only
          rcases h2 : evalArgs f rest s1 with ⟨r2, s2⟩
          have e2 := stepA rest s1 r2 s2 h2
          cases r2 <;> exact e2.trans e1
        | err ex => exact e1
        | timeout => exact e1
    have hC : ∀ (cv : Value) (avs : List Value) (s : RunSt),
        ((callValue (f + 1) cv avs s).2).env = s.env := by
      intro cv avs s
      cases cv
      case vfun fn =>
        simp only [callValue]
        rcases hb : evalBlock f fn.decl.body (allocFrame s (some fn.closure)).2
            (bindParams (allocFrame s (some fn.closure)).1
              (allocFrame s (some fn.closure)).2 fn.decl.params avs) with ⟨rb, s3⟩
        have eb : s3.env = s.env := by
          have h2 := ihB fn.decl.body (allocFrame s (some fn.closure)).2
            (bindParams (allocFrame s (some fn.closure)).1
              (allocFrame s (some fn.closure)).2 fn.decl.params avs)
          rw [hb] at h2
          rw [h2, bindParams_env]
          rfl
        cases rb with
        | ok u =>
          dsimp only
          split
          · cases hga : getAtSlot s3 fn.closure 0 "ThisExpr" with
            | some v => simp only [hga] <;> exact eb
            | none => simp only [hga] <;> exact eb
          · exact eb
        | err ex =>
          cases ex
          case retSig v =>
            dsimp only
            split
            · cases hga : getAtSlot s3 fn.closure 0 "ThisExpr" with
              | some v2 => simp only [hga] <;> exact eb
              | none => simp only [hga] <;> exact eb
            · exact eb
          all_goals exact eb
        | timeout => exact eb
      case vclass k =>
        simp only [callValue]
        cases hm : findMethod k "init" with
        | none => simp only [hm]; rfl
        | some initFn =>
          simp only [hm]
          rcases hc : callValue f
              (.vfun (bindFn (allocInst s k).1 initFn (.vinst (allocInst s k).2)).2) avs
              (bindFn (allocInst s k).1 initFn (.vinst (allocInst s k).2)).1
            with ⟨rc, s3⟩
          have ec : s3.env = s.env := by
            have h2 := ihC
              (.vfun (bindFn (allocInst s k).1 initFn (.vinst (allocInst s k).2)).2) avs
              (bindFn (allocInst s k).1 initFn (.vinst (allocInst s k).2)).1
            rw [hc] at h2
            exact h2
          cases rc <;> exact ec
      all_goals rfl
    have hS : ∀ (st : Stmt) (s : RunSt), ((evalStmt (f + 1) st s).2).env = s.env := by
      intro st s
      cases st with
      | exprS e =>
        simp only [evalStmt]
        rcases h1 : evalExpr f e s with ⟨r1, s1⟩
        have e1 := stepE e s r1 s1 h1
        cases r1 <;> exact e1
      | printS e =>
        simp only [evalStmt]
        rcases h1 : evalExpr f e s with ⟨r1, s1⟩
        have e1 := stepE e s r1 s1 h1
        cases r1 <;> exact e1
      | varS n initz =>
        cases initz with
        | some e =>
          simp only [evalStmt]
          rcases h1 : evalExpr f e s with ⟨r1, s1⟩
          have e1 := stepE e s r1 s1 h1
          cases r1 <;> exact e1
        | none => rfl
      | blockS stmts =>
        simp only [evalStmt]
        exact ihB stmts (allocFrame s (some s.env)).2 (allocFrame s (some s.env)).1
      | ifS c t e =>
        simp only [evalStmt]
        rcases h1 : evalExpr f c s with ⟨r1, s1⟩
        have e1 := stepE c s r1 s1 h1
        cases r1 with
        | ok cv =>
          dsimp only
          split
          · exact (ihS t s1).trans e1
          · cases e with
            | some els => exact (ihS els s1).trans e1
            | none => exact e1
        | err ex => exact e1
        | timeout => exact e1
      | whileS c b =>
        simp only [evalStmt]
        rcases h1 : evalExpr f c s with ⟨r1, s1⟩
        have e1 := stepE c s r1 s1 h1
        cases r1 with
        | ok cv =>
          dsimp only
          split
          · rcases h2 : evalStmt f b s1 with ⟨r2, s2⟩
            have e2 := stepS b s1 r2 s2 h2
            cases r2 with
            | ok u => exact (ihS (.whileS c b) s2).trans (e2.trans e1)
            | err ex => exact e2.trans e1
            | timeout => exact e2.trans e1
          · exact e1
        | err ex => exact e1
        | timeout => exact e1
      | funS n params body => rfl
      | retS kw value =>
        cases value with
        | some e =>
          simp only [evalStmt]
          rcases h1 : evalExpr f e s with ⟨r1, s1⟩
          have e1 := stepE e s r1 s1 h1
          cases r1 <;> exact e1
        | none => rfl
      | classS cname sup methods =>
        cases sup with
        | none =>
          simp only [evalStmt]
          split
          next s2 heq =>
            unfold envAssign at heq
            have h9 := envAssignLoop_env _ cname _ _ _ s2 heq
            exact h9
          next heq => rfl
          next heq => rfl
        | some sup0 =>
          rcases sup0 with ⟨sid, sname⟩
          simp only [evalStmt]
          rcases h1 : evalExpr f (.varE sid sname) s with ⟨r1, s1⟩
          have e1 := stepE (.varE sid sname) s r1 s1 h1
          cases r1 with
          | ok supv =>
            dsimp only
            cases supv
            case vclass supk =>
              dsimp only
              rw [super_frame_lookup (defineVar s1 s1.env cname .vnil) (.vclass supk)]
              dsimp only
              split
              next s2 heq =>
                refine Eq.trans ?_ e1
                unfold envAssign at heq
                have h9 := envAssignLoop_env _ cname _ _ _ s2 heq
                exact h9
              next heq => exact e1
              next heq => exact e1
            all_goals exact e1
          | err ex => exact e1
          | timeout => exact e1
    have hL : ∀ (sts : List Stmt) (s : RunSt), ((evalStmts (f + 1) sts s).2).env = s.env := by
      intro sts s
      cases sts with
      | nil => rfl
      | cons st rest =>
        simp only [evalStmts]
        rcases h1 : evalStmt f st s with ⟨r1, s1⟩
        have e1 := stepS st s r1 s1 h1
        cases r1 with
        | ok u =>
          dsimp only
          rcases h2 : evalStmts f rest s1 with ⟨r2, s2⟩
          have e2 : s2.env = s1.env := by
            have h3 := ihL rest s1
            rw [h2] at h3
            exact h3
          cases r2 <;> exact e2.trans e1
        | err ex => exact e1
        | timeout => exact e1
    have hB : ∀ (stmts : List Stmt) (a : Nat) (s : RunSt),
        ((evalBlock (f + 1) stmts a s).2).env = s.env := by
      intro stmts a s
      rfl
    exact ⟨hE, hA, hC, hS, hL, hB⟩

/-- C8: executing any statement (hence any block and any function
body) leaves the interpreter's current-environment pointer exactly
where it was, on every exit path: normal completion, a propagating
runtime error or host error, a propagating `return` signal, and even
fuel exhaustion of the embedding; likewise for whole statement lists,
block execution, and `callee.call`. -/
theorem c8_environment_restored_all_paths (fuel : Nat) :
    (∀ (st : Stmt) (s : RunSt), ((evalStmt fuel st s).2).env = s.env) ∧
    (∀ (stmts : List Stmt) (a : Nat) (s : RunSt),
      ((evalBlock fuel stmts a s).2).env = s.env) ∧
    (∀ (cv : Value) (avs : List Value) (s : RunSt),
      ((callValue fuel cv avs s).2).env = s.env) := by
  obtain ⟨-, -, hC, hS, -, hB⟩ := env_preserved fuel
  exact ⟨hS, hB, hC⟩

end Lox
